import Mathlib

/-!
Verification development for the Expense-Tracker core.

This file gives a shallow embedding, in Lean, of the transaction domain
models (Transaction / Expense / Income), the input-validation utilities,
the transaction service (filtering, sorting, update), the file-backed
storage service (atomic write, backup rotation, corruption recovery) and
the exchange-rate service, and proves properties of that embedding.

Modelling conventions:
 - JS numbers are modelled by a sum type JsNum: NaN, plus/minus infinity,
   or an exact rational.  None of the verified properties depend on the
   rounding of binary floating point, so finite doubles are embedded as
   the rationals they denote.
 - The host date parser is modelled on the canonical YYYY-MM-DD strings
   this program stores and passes around; other formats are treated as
   invalid dates.
 - Host effects (uuid generation, the wall clock, JSON parse/stringify,
   the file system) are passed in explicitly as parameters or as an
   explicit state value.
-/

namespace ExpenseTracker

/-- A JavaScript number: NaN, an infinity, or a finite value (embedded as an
exact rational). -/
inductive JsNum where
  | nan : JsNum
  | posInf : JsNum
  | negInf : JsNum
  | num (q : ℚ) : JsNum
  deriving DecidableEq, Repr

/-- A calendar date (year, month, day). -/
structure Date3 where
  year : Nat
  month : Nat
  day : Nat
  deriving DecidableEq, Repr

def digitVal (c : Char) : Nat := c.toNat - 48

def isLeapYear (y : Nat) : Bool :=
  y % 4 = 0 && (y % 100 != 0 || y % 400 = 0)

def daysInMonth (y m : Nat) : Nat :=
  if m = 2 then (if isLeapYear y then 29 else 28)
  else if m = 4 ∨ m = 6 ∨ m = 9 ∨ m = 11 then 30
  else 31

/-- Embedding of the host date parser applied to a string, restricted to the
canonical YYYY-MM-DD form the program stores: four digits, dash, two digits,
dash, two digits, denoting a valid calendar date.  Anything else is an
invalid date (none). -/
def parseJsDate (s : String) : Option Date3 :=
  match s.toList with
  | [y1, y2, y3, y4, h1, m1, m2, h2, d1, d2] =>
    if y1.isDigit && y2.isDigit && y3.isDigit && y4.isDigit && h1 == '-' &&
       m1.isDigit && m2.isDigit && h2 == '-' && d1.isDigit && d2.isDigit then
      let y := ((digitVal y1 * 10 + digitVal y2) * 10 + digitVal y3) * 10 + digitVal y4
      let m := digitVal m1 * 10 + digitVal m2
      let d := digitVal d1 * 10 + digitVal d2
      if 1 ≤ m && m ≤ 12 && 1 ≤ d && d ≤ daysInMonth y m then
        some ⟨y, m, d⟩
      else none
    else none
  | _ => none

/-- Numeric key of a date; on valid calendar dates this is strictly monotone
in the instant the host date object denotes. -/
def dateNum (d : Date3) : Nat := d.year * 10000 + d.month * 100 + d.day

def pad2 (n : Nat) : String := if n < 10 then "0" ++ toString n else toString n

/-- The year-month-day rendering used by formatDateISO: month and day padded
to two digits, the year printed as-is. -/
def renderDate (d : Date3) : String :=
  toString d.year ++ "-" ++ pad2 d.month ++ "-" ++ pad2 d.day

/-- The shape test of formatDateISO: four digits, dash, two digits, dash, two
digits. -/
def isCanonicalShape (s : String) : Bool :=
  match s.toList with
  | [y1, y2, y3, y4, h1, m1, m2, h2, d1, d2] =>
    y1.isDigit && y2.isDigit && y3.isDigit && y4.isDigit && h1 == '-' &&
    m1.isDigit && m2.isDigit && h2 == '-' && d1.isDigit && d2.isDigit
  | _ => false

/-- The argument of the Transaction constructor's date normalisation: either a
string or a host date object (possibly the invalid date). -/
inductive DateInput where
  | str (s : String)
  | obj (d : Option Date3)
  deriving DecidableEq, Repr

/-- formatDateISO from the date utilities: a valid canonical string is kept
as-is, any other valid input is re-rendered, an invalid date becomes the
empty string. -/
def formatDateISO : DateInput → String
  | .str s =>
    match parseJsDate s with
    | some d => if isCanonicalShape s then s else renderDate d
    | none => ""
  | .obj (some d) => renderDate d
  | .obj none => ""

/-! ## Shared configuration constants -/

def EXPENSE_CATEGORIES : List String :=
  ["Food", "Transport", "Utilities", "Entertainment", "Healthcare",
   "Shopping", "Education", "Other"]

def INCOME_SOURCES : List String :=
  ["Salary", "Freelance", "Investment", "Gift", "Business", "Other"]

structure CurrencyOption where
  symbol : String
  name : String
  code : String
  deriving DecidableEq, Repr

def CURRENCY_OPTIONS : List CurrencyOption :=
  [⟨"$", "US Dollar (USD)", "USD"⟩,
   ⟨"€", "Euro (EUR)", "EUR"⟩,
   ⟨"£", "British Pound (GBP)", "GBP"⟩,
   ⟨"₹", "Indian Rupee (INR)", "INR"⟩,
   ⟨"¥", "Japanese Yen (JPY)", "JPY"⟩,
   ⟨"¥", "Chinese Yuan (CNY)", "CNY"⟩,
   ⟨"C$", "Canadian Dollar (CAD)", "CAD"⟩,
   ⟨"A$", "Australian Dollar (AUD)", "AUD"⟩,
   ⟨"Fr", "Swiss Franc (CHF)", "CHF"⟩,
   ⟨"R$", "Brazilian Real (BRL)", "BRL"⟩]

/-! ## Transaction domain models -/

structure ValidationResult where
  isValid : Bool
  errors : List String
  deriving DecidableEq, Repr

/-- The error list produced by Transaction.validate for the base fields.  The
branch for a non-number amount cannot fire in the embedding (the amount field
is always a number value), so the checks are: NaN, finiteness, positivity,
then date presence and parseability, then description length.  The length
test keeps the source's truthiness guard on the description. -/
def transactionValidateErrors (amount : JsNum) (date : String)
    (description : String) : List String :=
  let amountErrors :=
    match amount with
    | .nan => ["Amount cannot be NaN"]
    | .posInf => ["Amount must be finite"]
    | .negInf => ["Amount must be finite"]
    | .num q => if q ≤ 0 then ["Amount must be a positive number"] else []
  let dateErrors :=
    if date = "" then ["Date is required"]
    else
      match parseJsDate date with
      | none => ["Date must be a valid date"]
      | some _ => []
  let descErrors :=
    if description ≠ "" ∧ 500 < description.length then
      ["Description is too long (max 500 characters)"]
    else []
  amountErrors ++ dateErrors ++ descErrors

structure Expense where
  id : String
  amount : JsNum
  date : String
  description : String
  currency : String
  createdAt : String
  category : String
  deriving DecidableEq, Repr

structure Income where
  id : String
  amount : JsNum
  date : String
  description : String
  currency : String
  createdAt : String
  source : String
  deriving DecidableEq, Repr

/-- The Expense constructor chain (Expense extends Transaction).  The host
effects — uuid generation and the current clock reading — are passed in
explicitly as genId and nowIso.  A missing or empty id argument falls back to
the generated one (the source tests the id with truthiness). -/
def Expense.make (amount : JsNum) (date : DateInput) (category : String)
    (description : String) (currency : String) (id : Option String)
    (genId : String) (nowIso : String) : Expense :=
  { id := match id with
      | some s => if s = "" then genId else s
      | none => genId
    amount := amount
    date := formatDateISO date
    description := description
    currency := currency
    createdAt := nowIso
    category := category }

/-- The Income constructor chain (Income extends Transaction). -/
def Income.make (amount : JsNum) (date : DateInput) (source : String)
    (description : String) (currency : String) (id : Option String)
    (genId : String) (nowIso : String) : Income :=
  { id := match id with
      | some s => if s = "" then genId else s
      | none => genId
    amount := amount
    date := formatDateISO date
    description := description
    currency := currency
    createdAt := nowIso
    source := source }

def Expense.validate (e : Expense) : ValidationResult :=
  let base := transactionValidateErrors e.amount e.date e.description
  let catErrors :=
    if e.category = "" then ["Category is required"]
    else if e.category ∈ EXPENSE_CATEGORIES then []
    else ["Invalid category. Must be one of: Food, Transport, Utilities, Entertainment, Healthcare, Shopping, Education, Other"]
  let errors := base ++ catErrors
  { isValid := errors.isEmpty, errors := errors }

def Income.validate (i : Income) : ValidationResult :=
  let base := transactionValidateErrors i.amount i.date i.description
  let srcErrors :=
    if i.source = "" then ["Source is required"]
    else if i.source ∈ INCOME_SOURCES then []
    else ["Invalid source. Must be one of: Salary, Freelance, Investment, Gift, Business, Other"]
  let errors := base ++ srcErrors
  { isValid := errors.isEmpty, errors := errors }

/-- The persisted item shape of an expense (the toJSON output). -/
structure StoredExpense where
  id : String
  amount : JsNum
  date : String
  description : String
  currency : String
  createdAt : String
  category : String
  type : String
  deriving DecidableEq, Repr

/-- The persisted item shape of an income record. -/
structure StoredIncome where
  id : String
  amount : JsNum
  date : String
  description : String
  currency : String
  createdAt : String
  source : String
  type : String
  deriving DecidableEq, Repr

def Expense.toJSON (e : Expense) : StoredExpense :=
  { id := e.id, amount := e.amount, date := e.date,
    description := e.description, currency := e.currency,
    createdAt := e.createdAt, category := e.category, type := "expense" }

def Income.toJSON (i : Income) : StoredIncome :=
  { id := i.id, amount := i.amount, date := i.date,
    description := i.description, currency := i.currency,
    createdAt := i.createdAt, source := i.source, type := "income" }

/-- Expense.fromJSON: rebuild through the constructor, defaulting a falsy
description to the empty string and a falsy currency to the dollar sign, then
restore the stored creation timestamp. -/
def Expense.fromJSON (genId nowIso : String) (j : StoredExpense) : Expense :=
  let e := Expense.make j.amount (DateInput.str j.date) j.category
    (if j.description = "" then "" else j.description)
    (if j.currency = "" then "$" else j.currency)
    (some j.id) genId nowIso
  { e with createdAt := j.createdAt }

/-- Income.fromJSON, mirroring Expense.fromJSON. -/
def Income.fromJSON (genId nowIso : String) (j : StoredIncome) : Income :=
  let i := Income.make j.amount (DateInput.str j.date) j.source
    (if j.description = "" then "" else j.description)
    (if j.currency = "" then "$" else j.currency)
    (some j.id) genId nowIso
  { i with createdAt := j.createdAt }

/-! ## Input-validation utilities -/

def allDigits (cs : List Char) : Bool := cs.all (·.isDigit)

def isJsWhitespace (c : Char) : Bool :=
  c == ' ' || c == '\t' || c == '\n' || c == '\r'

/-- The string trim used on amount input, on the character list. -/
def trimChars (cs : List Char) : List Char :=
  ((cs.dropWhile isJsWhitespace).reverse.dropWhile isJsWhitespace).reverse

/-- Split a character list at the dot characters. -/
def splitOnDot : List Char → List (List Char)
  | [] => [[]]
  | c :: cs =>
    if c = '.' then [] :: splitOnDot cs
    else
      match splitOnDot cs with
      | [] => [[c]]
      | h :: t => (c :: h) :: t

/-- The amount format accepted by validateAmount: one or more digits with an
optional fraction of one or two digits. -/
def amountShapeOk (cs : List Char) : Bool :=
  match splitOnDot cs with
  | [ip] => !ip.isEmpty && allDigits ip
  | [ip, fp] => !ip.isEmpty && allDigits ip &&
      (fp.length == 1 || fp.length == 2) && allDigits fp
  | _ => false

def digitsToNat (cs : List Char) : Nat :=
  cs.foldl (fun a c => a * 10 + digitVal c) 0

/-- Value of a shape-valid amount literal (the host parseFloat on it). -/
def parseAmount (cs : List Char) : ℚ :=
  match splitOnDot cs with
  | [ip] => (digitsToNat ip : ℚ)
  | [ip, fp] => (digitsToNat ip : ℚ) +
      (digitsToNat fp : ℚ) / (10 ^ fp.length : ℚ)
  | _ => 0

/-- Math.round: round half toward positive infinity. -/
def jsRound (q : ℚ) : ℚ := ((⌊q + 1/2⌋ : ℤ) : ℚ)

structure AmountValidation where
  isValid : Bool
  value : Option ℚ
  error : Option String
  deriving DecidableEq, Repr

/-- validateAmount from the input-validation utilities.  An empty input and a
whitespace-only input both fail the emptiness test, matching the source's
two-part truthiness guard.  A shape-valid literal is never NaN and always
finite, so those two rejections cannot fire in the embedding; the remaining
checks are positivity and the 999999999 cap, followed by rounding to two
decimal places. -/
def validateAmount (amount : String) : AmountValidation :=
  let trimmed := trimChars amount.toList
  if trimmed.isEmpty then
    ⟨false, none, some "Amount cannot be empty"⟩
  else
    if !amountShapeOk trimmed then
      ⟨false, none, some "Amount must be a valid number (max 2 decimal places, no letters)"⟩
    else
      let numValue := parseAmount trimmed
      if numValue ≤ 0 then
        ⟨false, none, some "Amount must be greater than zero"⟩
      else if 999999999 < numValue then
        ⟨false, none, some "Amount is too large"⟩
      else
        ⟨true, some (jsRound (numValue * 100) / 100), none⟩

/-! ## Exchange Rate Service -/

def SYMBOL_TO_CODE : List (String × String) :=
  [("$", "USD"), ("€", "EUR"), ("£", "GBP"), ("₹", "INR"), ("¥", "JPY"),
   ("C$", "CAD"), ("A$", "AUD"), ("Fr", "CHF"), ("R$", "BRL")]

/-- getCodeFromSymbol: table lookup with fallback to the input itself. -/
def getCodeFromSymbol (symbol : String) : String :=
  match SYMBOL_TO_CODE.lookup symbol with
  | some code => code
  | none => symbol

/-- The USD-based static fallback rate table; the decimal literals of the
source are written as the exact rationals they denote. -/
def STATIC_RATES_USD : List (String × ℚ) :=
  [("EUR", mkRat 92 100), ("GBP", mkRat 79 100), ("INR", 83), ("JPY", 148),
   ("CNY", mkRat 710 100), ("CAD", mkRat 135 100), ("AUD", mkRat 152 100),
   ("CHF", mkRat 88 100), ("BRL", mkRat 495 100), ("USD", 1)]

/-- convertStatic: synchronous conversion consulting the cached rates if any,
else the static fallback table.  The missing-rate guard is the source's
truthiness test on the two looked-up rates, so a present-but-zero rate is
treated like a missing one. -/
def convertStatic (cacheRates : Option (List (String × ℚ))) (amount : ℚ)
    (fromCurrency toCurrency : String) : ℚ :=
  let fromCode := getCodeFromSymbol fromCurrency
  let toCode := getCodeFromSymbol toCurrency
  if fromCode = toCode then amount
  else
    let rates := cacheRates.getD STATIC_RATES_USD
    let fromRate := rates.lookup fromCode
    let toRate := rates.lookup toCode
    match fromRate, toRate with
    | some f, some t => if f = 0 ∨ t = 0 then amount else amount / f * t
    | _, _ => amount

/-! ## Transaction Service: query core (getTransactions) -/

/-- A record tagged with the collection it came from, as produced by
getTransactions (the spread overrides any stored type field with the
collection tag). -/
inductive TaggedTx where
  | exp (e : StoredExpense)
  | inc (i : StoredIncome)
  deriving DecidableEq, Repr

def TaggedTx.date : TaggedTx → String
  | .exp e => e.date
  | .inc i => i.date

def TaggedTx.type : TaggedTx → String
  | .exp _ => "expense"
  | .inc _ => "income"

/-- The category field as read off a tagged record; reading it on an income
record gives the host's undefined, modelled as none. -/
def TaggedTx.category? : TaggedTx → Option String
  | .exp e => some e.category
  | .inc _ => none

/-- The source field as read off a tagged record (undefined on expenses). -/
def TaggedTx.source? : TaggedTx → Option String
  | .exp _ => none
  | .inc i => some i.source

/-- The filters object accepted by getTransactions; absent fields are none.
A present field may still be the empty string, which the source's truthiness
guards treat as absent. -/
structure Filters where
  type : Option String
  startDate : Option String
  endDate : Option String
  category : Option String
  source : Option String
  deriving DecidableEq, Repr

/-- JS truthiness of an optional string: present and non-empty. -/
def truthy : Option String → Bool
  | some s => !(s == "")
  | none => false

/-- isDateInRange from the date utilities: an unparseable check date fails;
a bound that is absent, empty, or unparseable is skipped; both bounds are
inclusive on the calendar day. -/
def isDateInRange (date : String) (startDate endDate : Option String) : Bool :=
  match parseJsDate date with
  | none => false
  | some d =>
    (match startDate with
     | some s =>
       if s = "" then true
       else
         match parseJsDate s with
         | some sd => decide (dateNum sd ≤ dateNum d)
         | none => true
     | none => true) &&
    (match endDate with
     | some s =>
       if s = "" then true
       else
         match parseJsDate s with
         | some ed => decide (dateNum d ≤ dateNum ed)
         | none => true
     | none => true)

/-- The type-filter stage of getTransactions. -/
def applyTypeFilter (f : Filters) (l : List TaggedTx) : List TaggedTx :=
  if f.type = some "expense" then
    l.filter fun t => t.type == "expense"
  else if f.type = some "income" then
    l.filter fun t => t.type == "income"
  else l

/-- The date-range stage, applied when either bound is truthy. -/
def applyDateFilter (f : Filters) (l : List TaggedTx) : List TaggedTx :=
  if truthy f.startDate || truthy f.endDate then
    l.filter fun t => isDateInRange t.date f.startDate f.endDate
  else l

/-- The category stage, applied when the filter is truthy; the predicate also
requires the record to be an expense. -/
def applyCategoryFilter (f : Filters) (l : List TaggedTx) : List TaggedTx :=
  match f.category with
  | some c =>
    if c = "" then l
    else l.filter fun t => t.type == "expense" && t.category? == some c
  | none => l

/-- The source stage, applied when the filter is truthy; the predicate also
requires the record to be an income record. -/
def applySourceFilter (f : Filters) (l : List TaggedTx) : List TaggedTx :=
  match f.source with
  | some c =>
    if c = "" then l
    else l.filter fun t => t.type == "income" && t.source? == some c
  | none => l

/-- The sort comparator of getTransactions: date of b minus date of a over
the host timestamps.  A comparison involving an unparseable date is NaN in
the host, which its sort treats as zero (equal). -/
def jsDateCompare (a b : TaggedTx) : Int :=
  match parseJsDate a.date, parseJsDate b.date with
  | some da, some db => (dateNum db : Int) - (dateNum da : Int)
  | _, _ => 0

/-- getTransactions after the two storage reads: tag both collections, apply
the four filter stages in order, then sort by date descending with a stable
sort (the host sort is stable; an insertion sort is stable for the same
comparator-induced preorder). -/
def getTransactionsCore (expenses : List StoredExpense)
    (income : List StoredIncome) (filters : Filters) : List TaggedTx :=
  let transactions := expenses.map TaggedTx.exp ++ income.map TaggedTx.inc
  (applySourceFilter filters (applyCategoryFilter filters (applyDateFilter
    filters (applyTypeFilter filters transactions)))).insertionSort
    fun a b => jsDateCompare a b ≤ 0

/-- The per-record test of the type stage, true when that stage does not
filter. -/
def typePasses (f : Filters) (t : TaggedTx) : Bool :=
  if f.type = some "expense" then t.type == "expense"
  else if f.type = some "income" then t.type == "income"
  else true

/-- The per-record test of the date stage. -/
def datePasses (f : Filters) (t : TaggedTx) : Bool :=
  if truthy f.startDate || truthy f.endDate then
    isDateInRange t.date f.startDate f.endDate
  else true

/-- The per-record test of the category stage. -/
def categoryPasses (f : Filters) (t : TaggedTx) : Bool :=
  match f.category with
  | some c => if c = "" then true else t.type == "expense" && t.category? == some c
  | none => true

/-- The per-record test of the source stage. -/
def sourcePasses (f : Filters) (t : TaggedTx) : Bool :=
  match f.source with
  | some c => if c = "" then true else t.type == "income" && t.source? == some c
  | none => true

/-- The conjunction of the four filter stages as a single predicate: a record
survives getTransactions exactly when it passes every applicable filter. -/
def passesFilters (f : Filters) (t : TaggedTx) : Bool :=
  typePasses f t && datePasses f t && categoryPasses f t && sourcePasses f t

/-- The numeric date key of a record (zero for an unparseable date). -/
def dateKeyOf (t : TaggedTx) : Nat :=
  (parseJsDate t.date).elim 0 dateNum

/-! ## Transaction Service: update core (updateExpense / updateIncome) -/

/-- The partial updates object for updateExpense; a field absent from the
update is none (the source tests presence with an undefined check). -/
structure ExpenseUpdates where
  amount : Option JsNum
  date : Option String
  category : Option String
  description : Option String
  currency : Option String
  deriving DecidableEq, Repr

/-- The partial updates object for updateIncome. -/
structure IncomeUpdates where
  amount : Option JsNum
  date : Option String
  source : Option String
  description : Option String
  currency : Option String
  deriving DecidableEq, Repr

structure UpdateExpenseResult where
  success : Bool
  message : String
  expense : Option StoredExpense
  deriving DecidableEq, Repr

structure UpdateIncomeResult where
  success : Bool
  message : String
  income : Option StoredIncome
  deriving DecidableEq, Repr

/-- The join of the validation messages with comma and space. -/
def joinErrors (l : List String) : String := String.intercalate ", " l

/-- The storage-level update step: find the first index whose record has the
given id and assign the new record there; with no match the document is left
as it was (the storage method reports false without writing). -/
def replaceFirst {α : Type} (p : α → Bool) (v : α) : List α → List α
  | [] => []
  | x :: xs => if p x then v :: xs else x :: replaceFirst p v xs

/-- The constructor call inside updateExpense: every field present in updates
overrides, every absent field is taken from the stored record; the date is
always re-wrapped in a host date object, and a falsy stored currency falls
back to the dollar sign.  The constructor stamps nowIso as createdAt. -/
def rebuildExpense (expense : StoredExpense) (updates : ExpenseUpdates)
    (genId nowIso : String) : Expense :=
  Expense.make
    (match updates.amount with | some a => a | none => expense.amount)
    (DateInput.obj (parseJsDate (match updates.date with
      | some s => s
      | none => expense.date)))
    (match updates.category with | some c => c | none => expense.category)
    (match updates.description with | some d => d | none => expense.description)
    (match updates.currency with
      | some c => c
      | none => if expense.currency = "" then "$" else expense.currency)
    (some expense.id) genId nowIso

/-- The constructor call inside updateIncome. -/
def rebuildIncome (income : StoredIncome) (updates : IncomeUpdates)
    (genId nowIso : String) : Income :=
  Income.make
    (match updates.amount with | some a => a | none => income.amount)
    (DateInput.obj (parseJsDate (match updates.date with
      | some s => s
      | none => income.date)))
    (match updates.source with | some s => s | none => income.source)
    (match updates.description with | some d => d | none => income.description)
    (match updates.currency with
      | some c => c
      | none => if income.currency = "" then "$" else income.currency)
    (some income.id) genId nowIso

/-- TransactionService.updateExpense over the in-memory document (the
storage read-modify-write collapsed onto the expenses list): exact-id
lookup with a reported miss, reconstruction through the constructor,
re-validation of the whole value, persistence only when valid. -/
def TransactionService.updateExpense (expenses : List StoredExpense)
    (id : String) (updates : ExpenseUpdates) (genId nowIso : String) :
    UpdateExpenseResult × List StoredExpense :=
  match expenses.find? (fun e => e.id == id) with
  | none => (⟨false, "Expense not found", none⟩, expenses)
  | some expense =>
    if !(rebuildExpense expense updates genId nowIso).validate.isValid then
      (⟨false, joinErrors (rebuildExpense expense updates genId nowIso).validate.errors,
        none⟩, expenses)
    else
      (⟨true, "Expense updated successfully",
        some (rebuildExpense expense updates genId nowIso).toJSON⟩,
       replaceFirst (fun e => e.id == id)
         (rebuildExpense expense updates genId nowIso).toJSON expenses)

/-- TransactionService.updateIncome, mirroring updateExpense. -/
def TransactionService.updateIncome (incomeList : List StoredIncome)
    (id : String) (updates : IncomeUpdates) (genId nowIso : String) :
    UpdateIncomeResult × List StoredIncome :=
  match incomeList.find? (fun i => i.id == id) with
  | none => (⟨false, "Income not found", none⟩, incomeList)
  | some income =>
    if !(rebuildIncome income updates genId nowIso).validate.isValid then
      (⟨false, joinErrors (rebuildIncome income updates genId nowIso).validate.errors,
        none⟩, incomeList)
    else
      (⟨true, "Income updated successfully",
        some (rebuildIncome income updates genId nowIso).toJSON⟩,
       replaceFirst (fun i => i.id == id)
         (rebuildIncome income updates genId nowIso).toJSON incomeList)

/-! ## Storage Service: file-system model -/

/-- Storage-level failures: the oversize guard, and any other host I/O
failure (a missing file, a failed filesystem call). -/
inductive JsError where
  | tooLarge : JsError
  | ioError : JsError
  deriving DecidableEq, Repr

def JsError.message : JsError → String
  | .tooLarge => "Data file too large. Maximum is 10MB."
  | .ioError => "file system error"

/-- The unit of persistence. -/
structure StoreDoc where
  expenses : List StoredExpense
  income : List StoredIncome
  settings : List (String × String)
  deriving DecidableEq, Repr

/-- What the host JSON parser yields on the relevant document shape: each
top-level field either present with the right type (some) or missing or
wrong-typed (none), in which case readData coerces it to its empty form. -/
structure ParsedDoc where
  expenses : Option (List StoredExpense)
  income : Option (List StoredIncome)
  settings : Option (List (String × String))
  deriving DecidableEq, Repr

/-- The host JSON pair, passed in explicitly: serialize embeds
JSON.stringify on a document, parse embeds JSON.parse, returning none where
the host would throw a SyntaxError. -/
structure Codec where
  serialize : StoreDoc → String
  parse : String → Option ParsedDoc

/-- The slice of the file system the storage service touches: the live data
file, the temporary write file, the transient pre-rename backup, the
timestamped rotation backups and the corruption backups (a backup is a pair
of its modification time and its content); none is an absent file. -/
structure FsState where
  live : Option String
  tmp : Option String
  transientBackup : Option String
  tsBackups : List (Nat × String)
  corrupted : List (Nat × String)
  deriving DecidableEq, Repr

def maxFileSize : Nat := 10 * 1024 * 1024

/-- rotateBackups: list the timestamped backups newest-first by modification
time; when at least three exist, delete all but the two newest; then copy
the live file to a fresh timestamped backup whose modification time is
now. -/
def rotateBackups (now : Nat) (fs : FsState) : FsState :=
  let sorted := fs.tsBackups.insertionSort fun a b => b.1 ≤ a.1
  let kept := if 3 ≤ sorted.length then sorted.take 2 else fs.tsBackups
  match fs.live with
  | some content => { fs with tsBackups := (now, content) :: kept }
  | none => { fs with tsBackups := kept }

/-- writeData: serialize, enforce the size cap before touching disk, write
the temporary file, rotate backups and take the transient backup when a live
file exists, atomically rename the temporary file over the live one, then
remove the transient backup.  On the size failure the catch block removes
any temporary file and rethrows. -/
def writeData (c : Codec) (doc : StoreDoc) (now : Nat) (fs : FsState) :
    FsState × Option JsError :=
  let jsonData := c.serialize doc
  if maxFileSize < jsonData.utf8ByteSize then
    ({ fs with tmp := none }, some JsError.tooLarge)
  else
    let fs1 := { fs with tmp := some jsonData }
    let fs2 :=
      match fs.live with
      | some liveContent =>
        let fsr := rotateBackups now fs1
        { fsr with transientBackup := some liveContent }
      | none => fs1
    let fs3 := { fs2 with live := some jsonData, tmp := none }
    ({ fs3 with transientBackup := none }, none)

/-- backupCorruptedFile: copy the live file to a timestamped corruption
backup, then reset the document by writing the empty one; any error from
that write is caught and only logged. -/
def backupCorruptedFile (c : Codec) (now : Nat) (fs : FsState) : FsState :=
  let fs1 :=
    match fs.live with
    | some content => { fs with corrupted := (now, content) :: fs.corrupted }
    | none => fs
  (writeData c ⟨[], [], []⟩ now fs1).1

/-- readData: a missing file is a host I/O error (wrapped and rethrown); a
file over the size cap is the oversize error; blank content yields the empty
document; content the parser rejects is corruption — back the bad file up,
reset the live document to empty, and return the empty document, never a
parse error; otherwise each top-level field is individually coerced to its
empty form when malformed. -/
def readData (c : Codec) (now : Nat) (fs : FsState) :
    FsState × Except JsError StoreDoc :=
  match fs.live with
  | none => (fs, .error JsError.ioError)
  | some content =>
    if maxFileSize < content.utf8ByteSize then
      (fs, .error JsError.tooLarge)
    else if (trimChars content.toList).isEmpty then
      (fs, .ok ⟨[], [], []⟩)
    else
      match c.parse content with
      | some data =>
        (fs, .ok ⟨data.expenses.getD [], data.income.getD [],
          data.settings.getD []⟩)
      | none =>
        (backupCorruptedFile c now fs, .ok ⟨[], [], []⟩)

/-- k successive writeData calls of documents docs 0, docs 1, ... at times
t 0, t 1, ... -/
def writeSeq (c : Codec) (docs : Nat → StoreDoc) (t : Nat → Nat) :
    Nat → FsState → FsState
  | 0, fs => fs
  | k + 1, fs => (writeData c (docs k) (t k) (writeSeq c docs t k fs)).1

/-! ## Storage-backed service operations -/

def StorageService.getExpenses (c : Codec) (now : Nat) (fs : FsState) :
    FsState × Except JsError (List StoredExpense) :=
  match readData c now fs with
  | (fs1, .ok doc) => (fs1, .ok doc.expenses)
  | (fs1, .error e) => (fs1, .error e)

def StorageService.getIncome (c : Codec) (now : Nat) (fs : FsState) :
    FsState × Except JsError (List StoredIncome) :=
  match readData c now fs with
  | (fs1, .ok doc) => (fs1, .ok doc.income)
  | (fs1, .error e) => (fs1, .error e)

/-- StorageService.addExpense: full read-modify-write, pushing the record
onto the expenses list. -/
def StorageService.addExpense (c : Codec) (now : Nat) (e : StoredExpense)
    (fs : FsState) : FsState × Option JsError :=
  match readData c now fs with
  | (fs1, .error err) => (fs1, some err)
  | (fs1, .ok doc) =>
    writeData c { doc with expenses := doc.expenses ++ [e] } now fs1

/-- StorageService.deleteExpense: full read-modify-write, filtering the id
out and reporting false when nothing matched (no write happens then). -/
def StorageService.deleteExpense (c : Codec) (now : Nat) (id : String)
    (fs : FsState) : FsState × Except JsError Bool :=
  match readData c now fs with
  | (fs1, .error err) => (fs1, .error err)
  | (fs1, .ok doc) =>
    let newExpenses := doc.expenses.filter fun e => !(e.id == id)
    if newExpenses.length = doc.expenses.length then
      (fs1, .ok false)
    else
      match writeData c { doc with expenses := newExpenses } now fs1 with
      | (fs2, none) => (fs2, .ok true)
      | (fs2, some err) => (fs2, .error err)

structure AddExpenseResult where
  success : Bool
  message : String
  expense : Option StoredExpense
  deriving DecidableEq, Repr

structure DeleteResult where
  success : Bool
  message : String
  deriving DecidableEq, Repr

/-- TransactionService.addExpense at the storage boundary: construct and
validate — a validation failure is returned as a failure result carrying the
joined messages, before any storage access — then persist through the record
store; the surrounding catch converts any thrown error (storage errors
included) into a failure result, so this entry point never throws. -/
def TransactionServiceFs.addExpense (c : Codec) (now : Nat) (amount : JsNum)
    (date : DateInput) (category description currency : String)
    (genId nowIso : String) (fs : FsState) : AddExpenseResult × FsState :=
  let expense := Expense.make amount date category description currency none
    genId nowIso
  if !expense.validate.isValid then
    (⟨false, joinErrors expense.validate.errors, none⟩, fs)
  else
    match StorageService.addExpense c now expense.toJSON fs with
    | (fs1, none) =>
      (⟨true, "Expense added successfully", some expense.toJSON⟩, fs1)
    | (fs1, some err) =>
      (⟨false, "Failed to add expense: " ++ err.message, none⟩, fs1)

/-- TransactionService.deleteExpense at the storage boundary: exact-id
lookup through a storage read, a miss reported as a failure result, and the
surrounding catch converting any thrown error into a failure result — this
entry point never throws either. -/
def TransactionServiceFs.deleteExpense (c : Codec) (now : Nat) (id : String)
    (fs : FsState) : DeleteResult × FsState :=
  match StorageService.getExpenses c now fs with
  | (fs1, .error err) =>
    (⟨false, "Failed to delete expense: " ++ err.message⟩, fs1)
  | (fs1, .ok expenses) =>
    match expenses.find? (fun e => e.id == id) with
    | none => (⟨false, "Expense not found"⟩, fs1)
    | some _ =>
      match StorageService.deleteExpense c now id fs1 with
      | (fs2, .ok _) => (⟨true, "Expense deleted successfully"⟩, fs2)
      | (fs2, .error err) =>
        (⟨false, "Failed to delete expense: " ++ err.message⟩, fs2)

/-- TransactionService.getTransactions at the storage boundary: two storage
reads with no catch — a storage error propagates to the caller as thrown —
then the pure tag-filter-sort pipeline. -/
def TransactionServiceFs.getTransactions (c : Codec) (now : Nat)
    (filters : Filters) (fs : FsState) :
    FsState × Except JsError (List TaggedTx) :=
  match StorageService.getExpenses c now fs with
  | (fs1, .error err) => (fs1, .error err)
  | (fs1, .ok expenses) =>
    match StorageService.getIncome c now fs1 with
    | (fs2, .error err) => (fs2, .error err)
    | (fs2, .ok incomeList) =>
      (fs2, .ok (getTransactionsCore expenses incomeList filters))

/-! ## General helper lemmas -/

theorem isEmpty_false_of_mem {α : Type} {l : List α} {m : α} (hm : m ∈ l) :
    l.isEmpty = false := by
  cases l with
  | nil => cases hm
  | cons a t => rfl

/-- A non-positive-finite amount always contributes an amount-related message
to the base validation errors. -/
theorem transactionValidateErrors_amount (amount : JsNum) (date description : String)
    (h : amount = JsNum.nan ∨ amount = JsNum.posInf ∨ amount = JsNum.negInf ∨
         ∃ q, amount = JsNum.num q ∧ q ≤ 0) :
    ∃ m ∈ transactionValidateErrors amount date description,
      m = "Amount cannot be NaN" ∨ m = "Amount must be finite" ∨
      m = "Amount must be a positive number" := by
  rcases h with h | h | h | ⟨q, hq, hq0⟩
  · subst h
    exact ⟨"Amount cannot be NaN", by simp [transactionValidateErrors], Or.inl rfl⟩
  · subst h
    exact ⟨"Amount must be finite", by simp [transactionValidateErrors],
      Or.inr (Or.inl rfl)⟩
  · subst h
    exact ⟨"Amount must be finite", by simp [transactionValidateErrors],
      Or.inr (Or.inl rfl)⟩
  · subst hq
    exact ⟨"Amount must be a positive number",
      by simp [transactionValidateErrors, hq0], Or.inr (Or.inr rfl)⟩

theorem expense_validate_amount_invalid (e : Expense)
    (h : e.amount = JsNum.nan ∨ e.amount = JsNum.posInf ∨ e.amount = JsNum.negInf ∨
         ∃ q, e.amount = JsNum.num q ∧ q ≤ 0) :
    (Expense.validate e).isValid = false ∧
    ∃ m ∈ (Expense.validate e).errors,
      m = "Amount cannot be NaN" ∨ m = "Amount must be finite" ∨
      m = "Amount must be a positive number" := by
  obtain ⟨m, hm, hp⟩ := transactionValidateErrors_amount e.amount e.date e.description h
  have hmem : m ∈ (Expense.validate e).errors := List.mem_append_left _ hm
  have hval : (Expense.validate e).isValid = (Expense.validate e).errors.isEmpty := rfl
  exact ⟨hval.trans (isEmpty_false_of_mem hmem), m, hmem, hp⟩

theorem income_validate_amount_invalid (i : Income)
    (h : i.amount = JsNum.nan ∨ i.amount = JsNum.posInf ∨ i.amount = JsNum.negInf ∨
         ∃ q, i.amount = JsNum.num q ∧ q ≤ 0) :
    (Income.validate i).isValid = false ∧
    ∃ m ∈ (Income.validate i).errors,
      m = "Amount cannot be NaN" ∨ m = "Amount must be finite" ∨
      m = "Amount must be a positive number" := by
  obtain ⟨m, hm, hp⟩ := transactionValidateErrors_amount i.amount i.date i.description h
  have hmem : m ∈ (Income.validate i).errors := List.mem_append_left _ hm
  have hval : (Income.validate i).isValid = (Income.validate i).errors.isEmpty := rfl
  exact ⟨hval.trans (isEmpty_false_of_mem hmem), m, hmem, hp⟩

/-! ## Claim C1 -/

/-- C1 counterexample: the claim says a value with amount 1000000000 always
fails validation; but the model-level validate has no upper-bound check, so a
constructed Expense with amount 1000000000 and otherwise valid fields passes
validate with an empty error list. -/
theorem c1_counterexample :
    (Expense.validate (Expense.make (JsNum.num 1000000000)
        (DateInput.str "2024-01-15") "Food" "" "$" none "id-1"
        "2024-01-15T10:00:00.000Z")).isValid = true ∧
    (Expense.validate (Expense.make (JsNum.num 1000000000)
        (DateInput.str "2024-01-15") "Food" "" "$" none "id-1"
        "2024-01-15T10:00:00.000Z")).errors = [] := by
  decide

/-- C1 (amended): for every constructed Expense or Income value, validate
rejects — with an amount-related message — whenever the amount is NaN,
infinite, or not positive; the 999999999 cap is not checked by validate (both
999999999 and 1000000000 are accepted when all other fields are valid) — the
cap is enforced by the separate input-validation utility validateAmount,
which accepts 999999999 and rejects 1000000000 with an amount-too-large
message. -/
theorem c1_validate_amount_bounds :
    (∀ e : Expense,
      (e.amount = JsNum.nan ∨ e.amount = JsNum.posInf ∨ e.amount = JsNum.negInf ∨
       ∃ q, e.amount = JsNum.num q ∧ q ≤ 0) →
      (Expense.validate e).isValid = false ∧
      ∃ m ∈ (Expense.validate e).errors,
        m = "Amount cannot be NaN" ∨ m = "Amount must be finite" ∨
        m = "Amount must be a positive number") ∧
    (∀ i : Income,
      (i.amount = JsNum.nan ∨ i.amount = JsNum.posInf ∨ i.amount = JsNum.negInf ∨
       ∃ q, i.amount = JsNum.num q ∧ q ≤ 0) →
      (Income.validate i).isValid = false ∧
      ∃ m ∈ (Income.validate i).errors,
        m = "Amount cannot be NaN" ∨ m = "Amount must be finite" ∨
        m = "Amount must be a positive number") ∧
    (Expense.validate (Expense.make (JsNum.num 999999999)
        (DateInput.str "2024-01-15") "Food" "" "$" none "id-1"
        "2024-01-15T10:00:00.000Z")).isValid = true ∧
    (Expense.validate (Expense.make (JsNum.num 1000000000)
        (DateInput.str "2024-01-15") "Food" "" "$" none "id-1"
        "2024-01-15T10:00:00.000Z")).isValid = true ∧
    (validateAmount "999999999").isValid = true ∧
    (validateAmount "1000000000").isValid = false ∧
    (validateAmount "1000000000").error = some "Amount is too large" := by
  refine ⟨expense_validate_amount_invalid, income_validate_amount_invalid,
    by decide, by decide, by decide, by decide, by decide⟩

/-- C1 witness: the amended theorem applied at a concrete NaN-amount expense,
a concrete negative-amount income, and the concrete cap inputs. -/
theorem c1_validate_amount_bounds_witness :
    (Expense.validate (Expense.make JsNum.nan (DateInput.str "2024-01-15")
        "Food" "" "$" none "id-1" "t0")).isValid = false ∧
    (Income.validate (Income.make (JsNum.num (-5)) (DateInput.str "2024-01-15")
        "Salary" "" "$" none "id-2" "t0")).isValid = false ∧
    (validateAmount "1000000000").isValid = false :=
  ⟨(c1_validate_amount_bounds.1 _ (Or.inl rfl)).1,
   (c1_validate_amount_bounds.2.1 _ (Or.inr (Or.inr (Or.inr ⟨-5, rfl, by norm_num⟩)))).1,
   c1_validate_amount_bounds.2.2.2.2.2.1⟩

/-! ## Claim C10 -/

/-- C10: the symbol-to-code mapping returns the fixed table's code for the
nine known symbols and any other string (currency codes included) unchanged;
the yen symbol always maps to JPY and no input other than the literal string
CNY ever maps to CNY, even though the configured currency options list the
yen symbol for both JPY and CNY; consequently convertStatic treats a yen
currency exactly like JPY. -/
theorem c10_symbol_mapping :
    (∀ s : String, getCodeFromSymbol s =
      if s = "$" then "USD" else if s = "€" then "EUR"
      else if s = "£" then "GBP" else if s = "₹" then "INR"
      else if s = "¥" then "JPY" else if s = "C$" then "CAD"
      else if s = "A$" then "AUD" else if s = "Fr" then "CHF"
      else if s = "R$" then "BRL" else s) ∧
    getCodeFromSymbol "¥" = "JPY" ∧
    (∀ s : String, getCodeFromSymbol s = "CNY" → s = "CNY") ∧
    ((⟨"¥", "Japanese Yen (JPY)", "JPY"⟩ : CurrencyOption) ∈ CURRENCY_OPTIONS ∧
     (⟨"¥", "Chinese Yuan (CNY)", "CNY"⟩ : CurrencyOption) ∈ CURRENCY_OPTIONS) ∧
    (∀ cacheRates amount toCurrency,
      convertStatic cacheRates amount "¥" toCurrency =
      convertStatic cacheRates amount "JPY" toCurrency) := by
  have htable : ∀ s : String, getCodeFromSymbol s =
      if s = "$" then "USD" else if s = "€" then "EUR"
      else if s = "£" then "GBP" else if s = "₹" then "INR"
      else if s = "¥" then "JPY" else if s = "C$" then "CAD"
      else if s = "A$" then "AUD" else if s = "Fr" then "CHF"
      else if s = "R$" then "BRL" else s := by
    intro s
    by_cases h1 : s = "$"
    · subst h1; decide
    by_cases h2 : s = "€"
    · subst h2; decide
    by_cases h3 : s = "£"
    · subst h3; decide
    by_cases h4 : s = "₹"
    · subst h4; decide
    by_cases h5 : s = "¥"
    · subst h5; decide
    by_cases h6 : s = "C$"
    · subst h6; decide
    by_cases h7 : s = "A$"
    · subst h7; decide
    by_cases h8 : s = "Fr"
    · subst h8; decide
    by_cases h9 : s = "R$"
    · subst h9; decide
    have e1 : (s == "$") = false := by simp [h1]
    have e2 : (s == "€") = false := by simp [h2]
    have e3 : (s == "£") = false := by simp [h3]
    have e4 : (s == "₹") = false := by simp [h4]
    have e5 : (s == "¥") = false := by simp [h5]
    have e6 : (s == "C$") = false := by simp [h6]
    have e7 : (s == "A$") = false := by simp [h7]
    have e8 : (s == "Fr") = false := by simp [h8]
    have e9 : (s == "R$") = false := by simp [h9]
    simp only [getCodeFromSymbol, SYMBOL_TO_CODE, List.lookup,
      e1, e2, e3, e4, e5, e6, e7, e8, e9]
    rw [if_neg h1, if_neg h2, if_neg h3, if_neg h4, if_neg h5, if_neg h6,
      if_neg h7, if_neg h8, if_neg h9]
  refine ⟨htable, by decide, ?_,
    ⟨by unfold CURRENCY_OPTIONS; exact .tail _ (.tail _ (.tail _ (.tail _ (.head _)))),
     by unfold CURRENCY_OPTIONS;
        exact .tail _ (.tail _ (.tail _ (.tail _ (.tail _ (.head _)))))⟩, ?_⟩
  · intro s hs
    rw [htable s] at hs
    split_ifs at hs with hc1 hc2 hc3 hc4 hc5 hc6 hc7 hc8 hc9
    · exact absurd hs (by decide)
    · exact absurd hs (by decide)
    · exact absurd hs (by decide)
    · exact absurd hs (by decide)
    · exact absurd hs (by decide)
    · exact absurd hs (by decide)
    · exact absurd hs (by decide)
    · exact absurd hs (by decide)
    · exact absurd hs (by decide)
    · exact hs
  · intro cacheRates amount toCurrency
    unfold convertStatic
    rw [show getCodeFromSymbol "¥" = "JPY" from by decide,
        show getCodeFromSymbol "JPY" = "JPY" from by decide]

/-- C10 witness: the mapping theorem applied at concrete inputs, with its
implication hypothesis discharged at the literal string CNY. -/
theorem c10_symbol_mapping_witness :
    getCodeFromSymbol "XYZ" = "XYZ" ∧ "CNY" = "CNY" ∧
    convertStatic none 100 "¥" "$" = convertStatic none 100 "JPY" "$" :=
  ⟨(c10_symbol_mapping.1 "XYZ").trans (by decide),
   c10_symbol_mapping.2.2.1 "CNY" (by decide),
   c10_symbol_mapping.2.2.2.2 none 100 "$"⟩

/-! ## Claim C7 -/

/-- C7 counterexample: with cached rates in which EUR is present with rate
zero, convertStatic returns the amount unchanged (the truthiness guard treats
a zero rate as missing), while the claim as stated demands the cross-rate
formula, which gives (100 / rate USD) * rate EUR = 0 here, not 100. -/
theorem c7_counterexample :
    convertStatic (some [("USD", 1), ("EUR", 0)]) 100 "$" "€" = 100 ∧
    (100 : ℚ) / 1 * 0 = 0 ∧ (100 : ℚ) ≠ 0 := by
  refine ⟨by decide, by norm_num, by norm_num⟩

/-- C7 (amended): convertStatic returns the amount itself when the
symbol-mapped codes agree; the amount unchanged when either code's rate is
missing from the consulted table — the cached rates if any, otherwise the
static fallback — or present with value zero (the guard is a truthiness
test); and otherwise the cross rate (amount / rate-from) * rate-to. -/
theorem c7_convertStatic_cases (cacheRates : Option (List (String × ℚ)))
    (amount : ℚ) (fromCurrency toCurrency : String) :
    (getCodeFromSymbol fromCurrency = getCodeFromSymbol toCurrency →
      convertStatic cacheRates amount fromCurrency toCurrency = amount) ∧
    (getCodeFromSymbol fromCurrency ≠ getCodeFromSymbol toCurrency →
      (((cacheRates.getD STATIC_RATES_USD).lookup (getCodeFromSymbol fromCurrency) = none ∨
        (cacheRates.getD STATIC_RATES_USD).lookup (getCodeFromSymbol fromCurrency) = some 0 ∨
        (cacheRates.getD STATIC_RATES_USD).lookup (getCodeFromSymbol toCurrency) = none ∨
        (cacheRates.getD STATIC_RATES_USD).lookup (getCodeFromSymbol toCurrency) = some 0) →
        convertStatic cacheRates amount fromCurrency toCurrency = amount) ∧
      (∀ f t : ℚ,
        (cacheRates.getD STATIC_RATES_USD).lookup (getCodeFromSymbol fromCurrency) = some f →
        (cacheRates.getD STATIC_RATES_USD).lookup (getCodeFromSymbol toCurrency) = some t →
        f ≠ 0 → t ≠ 0 →
        convertStatic cacheRates amount fromCurrency toCurrency = amount / f * t)) := by
  constructor
  · intro h
    simp only [convertStatic]
    rw [if_pos h]
  · intro hne
    constructor
    · intro hmiss
      simp only [convertStatic]
      rw [if_neg hne]
      rcases hmiss with h | h | h | h
      · rw [h]
      · rw [h]
        cases hl : (cacheRates.getD STATIC_RATES_USD).lookup
            (getCodeFromSymbol toCurrency) with
        | none => rfl
        | some t => simp
      · rw [h]
        cases hl : (cacheRates.getD STATIC_RATES_USD).lookup
            (getCodeFromSymbol fromCurrency) with
        | none => rfl
        | some f => rfl
      · rw [h]
        cases hl : (cacheRates.getD STATIC_RATES_USD).lookup
            (getCodeFromSymbol fromCurrency) with
        | none => rfl
        | some f => simp
    · intro f t hf ht hf0 ht0
      simp only [convertStatic]
      rw [if_neg hne, hf, ht]
      simp [hf0, ht0]

/-- C7 witness: the amended case analysis applied at concrete inputs — the
identity case at dollar-to-dollar, the missing-rate case at an unknown code,
and the cross-rate case at the static euro rate. -/
theorem c7_convertStatic_cases_witness :
    convertStatic none 100 "$" "$" = 100 ∧
    convertStatic none 100 "$" "XYZ" = 100 ∧
    convertStatic none 100 "$" "€" = 100 / 1 * mkRat 92 100 :=
  ⟨(c7_convertStatic_cases none 100 "$" "$").1 (by decide),
   ((c7_convertStatic_cases none 100 "$" "XYZ").2 (by decide)).1 (by decide),
   ((c7_convertStatic_cases none 100 "$" "€").2 (by decide)).2 1 (mkRat 92 100)
     (by decide) (by decide) (by norm_num) (by norm_num)⟩

/-! ## Claim C8 -/

/-- Any string the date parser accepts has the canonical ten-character
shape. -/
theorem isCanonicalShape_of_parse {s : String} {d : Date3}
    (h : parseJsDate s = some d) : isCanonicalShape s = true := by
  unfold parseJsDate at h
  unfold isCanonicalShape
  generalize s.toList = cs at h ⊢
  split at h
  next y1 y2 y3 y4 h1 m1 m2 h2 d1 d2 =>
    split at h
    next hcond =>
      exact hcond
    next =>
      exact absurd h (by simp)
  next =>
    exact absurd h (by simp)

/-- If the base validation errors are empty, the date field is non-empty and
parses. -/
theorem base_errors_nil_date {amount : JsNum} {date description : String}
    (h : transactionValidateErrors amount date description = []) :
    date ≠ "" ∧ ∃ d, parseJsDate date = some d := by
  simp only [transactionValidateErrors] at h
  rcases List.append_eq_nil.mp h with ⟨h12, _⟩
  rcases List.append_eq_nil.mp h12 with ⟨_, h2⟩
  by_cases hd : date = ""
  · rw [if_pos hd] at h2
    cases h2
  · rw [if_neg hd] at h2
    refine ⟨hd, ?_⟩
    cases hp : parseJsDate date with
    | none => rw [hp] at h2; cases h2
    | some d => exact ⟨d, rfl⟩

/-- formatDateISO is the identity on strings the date parser accepts. -/
theorem formatDateISO_str_of_parse {s : String} {d : Date3}
    (h : parseJsDate s = some d) : formatDateISO (DateInput.str s) = s := by
  simp only [formatDateISO]
  rw [h]
  simp [isCanonicalShape_of_parse h]

theorem expense_valid_base_nil {e : Expense}
    (h : (Expense.validate e).isValid = true) :
    transactionValidateErrors e.amount e.date e.description = [] := by
  have h2 : (Expense.validate e).errors = [] :=
    List.isEmpty_iff.mp h
  exact (List.append_eq_nil.mp h2).1

theorem income_valid_base_nil {i : Income}
    (h : (Income.validate i).isValid = true) :
    transactionValidateErrors i.amount i.date i.description = [] := by
  have h2 : (Income.validate i).errors = [] :=
    List.isEmpty_iff.mp h
  exact (List.append_eq_nil.mp h2).1

/-- C8 counterexample: a constructed Expense with an empty currency string is
accepted by validate (which never inspects the currency), but serializing and
reconstructing it replaces the empty currency by the default dollar sign, so
the round trip is not the identity on this valid value. -/
theorem c8_counterexample :
    (Expense.validate (Expense.make (JsNum.num 10) (DateInput.str "2024-01-15")
      "Food" "" "" (some "a1") "gen" "t0")).isValid = true ∧
    Expense.fromJSON "g2" "t1" (Expense.make (JsNum.num 10)
      (DateInput.str "2024-01-15") "Food" "" "" (some "a1") "gen" "t0").toJSON ≠
      Expense.make (JsNum.num 10) (DateInput.str "2024-01-15")
        "Food" "" "" (some "a1") "gen" "t0" := by
  decide

/-- C8 (amended): for every valid Expense (resp. Income) whose id and currency
are non-empty, serializing with toJSON and reconstructing with fromJSON is the
identity — id, amount, date, category (resp. source), description, currency
and also createdAt are all restored.  (The two extra hypotheses are forced:
validate constrains neither field, an empty currency is replaced by the
default dollar sign on reconstruction, and an empty id would be
regenerated.) -/
theorem c8_roundtrip_of_valid (genId nowIso : String) :
    (∀ e : Expense, (Expense.validate e).isValid = true → e.id ≠ "" →
      e.currency ≠ "" → Expense.fromJSON genId nowIso e.toJSON = e) ∧
    (∀ i : Income, (Income.validate i).isValid = true → i.id ≠ "" →
      i.currency ≠ "" → Income.fromJSON genId nowIso i.toJSON = i) := by
  constructor
  · intro e hv hid0 hcur0
    obtain ⟨d, hd0⟩ := (base_errors_nil_date (expense_valid_base_nil hv)).2
    obtain ⟨id, amount, date, desc, cur, cAt, cat⟩ := e
    have hd : parseJsDate date = some d := hd0
    have hid : id ≠ "" := hid0
    have hcur : cur ≠ "" := hcur0
    have hdate : formatDateISO (DateInput.str date) = date :=
      formatDateISO_str_of_parse hd
    by_cases hdesc : desc = ""
    · subst hdesc
      simp [Expense.fromJSON, Expense.toJSON, Expense.make, hid, hcur, hdate]
    · simp [Expense.fromJSON, Expense.toJSON, Expense.make, hid, hcur, hdate,
        hdesc]
  · intro i hv hid0 hcur0
    obtain ⟨d, hd0⟩ := (base_errors_nil_date (income_valid_base_nil hv)).2
    obtain ⟨id, amount, date, desc, cur, cAt, src⟩ := i
    have hd : parseJsDate date = some d := hd0
    have hid : id ≠ "" := hid0
    have hcur : cur ≠ "" := hcur0
    have hdate : formatDateISO (DateInput.str date) = date :=
      formatDateISO_str_of_parse hd
    by_cases hdesc : desc = ""
    · subst hdesc
      simp [Income.fromJSON, Income.toJSON, Income.make, hid, hcur, hdate]
    · simp [Income.fromJSON, Income.toJSON, Income.make, hid, hcur, hdate,
        hdesc]

/-- C8 witness: the amended round trip applied at one concrete valid expense
and one concrete valid income record. -/
theorem c8_roundtrip_of_valid_witness :
    Expense.fromJSON "g" "t9" (Expense.make (JsNum.num 25)
      (DateInput.str "2024-03-02") "Food" "lunch" "$" none "gen1" "t1").toJSON =
      Expense.make (JsNum.num 25) (DateInput.str "2024-03-02")
        "Food" "lunch" "$" none "gen1" "t1" ∧
    Income.fromJSON "g" "t9" (Income.make (JsNum.num 500)
      (DateInput.str "2024-03-01") "Salary" "" "€" none "gen2" "t2").toJSON =
      Income.make (JsNum.num 500) (DateInput.str "2024-03-01")
        "Salary" "" "€" none "gen2" "t2" :=
  ⟨(c8_roundtrip_of_valid "g" "t9").1 _ (by decide) (by decide) (by decide),
   (c8_roundtrip_of_valid "g" "t9").2 _ (by decide) (by decide) (by decide)⟩

/-! ## Claim C2 -/

theorem applyTypeFilter_eq (f : Filters) (l : List TaggedTx) :
    applyTypeFilter f l = l.filter (typePasses f) := by
  unfold applyTypeFilter
  split_ifs with h1 h2
  · exact List.filter_congr fun x _ => by simp [typePasses, h1]
  · exact List.filter_congr fun x _ => by simp [typePasses, h1, h2]
  · exact (List.filter_eq_self.mpr fun x _ => by simp [typePasses, h1, h2]).symm

theorem applyDateFilter_eq (f : Filters) (l : List TaggedTx) :
    applyDateFilter f l = l.filter (datePasses f) := by
  unfold applyDateFilter
  split_ifs with h
  · exact List.filter_congr fun x _ => by simp [datePasses, h]
  · exact (List.filter_eq_self.mpr fun x _ => by simp [datePasses, h]).symm

theorem applyCategoryFilter_eq (f : Filters) (l : List TaggedTx) :
    applyCategoryFilter f l = l.filter (categoryPasses f) := by
  unfold applyCategoryFilter
  split
  · rename_i c hc
    split_ifs with h
    · exact (List.filter_eq_self.mpr fun x _ => by simp [categoryPasses, hc, h]).symm
    · exact List.filter_congr fun x _ => by simp [categoryPasses, hc, h]
  · rename_i hc
    exact (List.filter_eq_self.mpr fun x _ => by simp [categoryPasses, hc]).symm

theorem applySourceFilter_eq (f : Filters) (l : List TaggedTx) :
    applySourceFilter f l = l.filter (sourcePasses f) := by
  unfold applySourceFilter
  split
  · rename_i c hc
    split_ifs with h
    · exact (List.filter_eq_self.mpr fun x _ => by simp [sourcePasses, hc, h]).symm
    · exact List.filter_congr fun x _ => by simp [sourcePasses, hc, h]
  · rename_i hc
    exact (List.filter_eq_self.mpr fun x _ => by simp [sourcePasses, hc]).symm

/-- The four sequential filter stages equal one filter by the conjunction of
the four per-record tests. -/
theorem filterPipeline_eq (f : Filters) (l : List TaggedTx) :
    applySourceFilter f (applyCategoryFilter f (applyDateFilter f
      (applyTypeFilter f l))) = l.filter (passesFilters f) := by
  rw [applyTypeFilter_eq, applyDateFilter_eq, applyCategoryFilter_eq,
    applySourceFilter_eq, List.filter_filter, List.filter_filter,
    List.filter_filter]
  exact List.filter_congr fun x _ => by
    simp only [passesFilters]
    cases typePasses f x <;> cases datePasses f x <;>
      cases categoryPasses f x <;> cases sourcePasses f x <;> rfl

/-- Insertion into a sorted list stays sorted, for a relation that is total
and transitive on the elements involved. -/
theorem pairwise_orderedInsert_restricted {α : Type} (r : α → α → Prop)
    [DecidableRel r] (P : α → Prop)
    (total : ∀ a b, P a → P b → r a b ∨ r b a)
    (htrans : ∀ a b c, P a → P b → P c → r a b → r b c → r a c)
    (a : α) (l : List α) (ha : P a) (hl : ∀ x ∈ l, P x) (hs : l.Pairwise r) :
    (l.orderedInsert r a).Pairwise r := by
  induction l with
  | nil => simp [List.orderedInsert]
  | cons b t ih =>
    rw [List.orderedInsert]
    split_ifs with hab
    · refine List.Pairwise.cons ?_ hs
      intro y hy
      rcases List.mem_cons.mp hy with rfl | hyt
      · exact hab
      · exact htrans a b y ha (hl b (List.mem_cons_self b t))
          (hl y (List.mem_cons_of_mem b hyt)) hab
          ((List.pairwise_cons.mp hs).1 y hyt)
    · have hba : r b a :=
        (total a b ha (hl b (List.mem_cons_self b t))).resolve_left hab
      refine List.Pairwise.cons ?_
        (ih (fun x hx => hl x (List.mem_cons_of_mem b hx))
          (List.pairwise_cons.mp hs).2)
      intro y hy
      rcases (List.mem_orderedInsert _).mp hy with rfl | hyt
      · exact hba
      · exact (List.pairwise_cons.mp hs).1 y hyt

/-- Insertion sort produces a sorted list, for a relation that is total and
transitive on the list's elements. -/
theorem pairwise_insertionSort_restricted {α : Type} (r : α → α → Prop)
    [DecidableRel r] (P : α → Prop)
    (total : ∀ a b, P a → P b → r a b ∨ r b a)
    (htrans : ∀ a b c, P a → P b → P c → r a b → r b c → r a c) :
    ∀ l : List α, (∀ x ∈ l, P x) → (l.insertionSort r).Pairwise r := by
  intro l
  induction l with
  | nil => intro _; simp [List.insertionSort]
  | cons a t ih =>
    intro hP
    rw [List.insertionSort]
    exact pairwise_orderedInsert_restricted r P total htrans a
      (t.insertionSort r) (hP a (List.mem_cons_self a t))
      (fun x hx => hP x (List.mem_cons_of_mem a ((List.mem_insertionSort _).mp hx)))
      (ih fun x hx => hP x (List.mem_cons_of_mem a hx))

theorem jsDateCompare_le_total {a b : TaggedTx}
    (ha : (parseJsDate a.date).isSome = true)
    (hb : (parseJsDate b.date).isSome = true) :
    jsDateCompare a b ≤ 0 ∨ jsDateCompare b a ≤ 0 := by
  obtain ⟨da, hpa⟩ := Option.isSome_iff_exists.mp ha
  obtain ⟨db, hpb⟩ := Option.isSome_iff_exists.mp hb
  unfold jsDateCompare
  rw [hpa, hpb]
  change (dateNum db : Int) - (dateNum da : Int) ≤ 0 ∨
    (dateNum da : Int) - (dateNum db : Int) ≤ 0
  omega

theorem jsDateCompare_le_trans {a b c : TaggedTx}
    (ha : (parseJsDate a.date).isSome = true)
    (hb : (parseJsDate b.date).isSome = true)
    (hc : (parseJsDate c.date).isSome = true)
    (hab : jsDateCompare a b ≤ 0) (hbc : jsDateCompare b c ≤ 0) :
    jsDateCompare a c ≤ 0 := by
  obtain ⟨da, hpa⟩ := Option.isSome_iff_exists.mp ha
  obtain ⟨db, hpb⟩ := Option.isSome_iff_exists.mp hb
  obtain ⟨dc, hpc⟩ := Option.isSome_iff_exists.mp hc
  unfold jsDateCompare at hab hbc ⊢
  rw [hpa, hpb] at hab
  rw [hpb, hpc] at hbc
  rw [hpa, hpc]
  change (dateNum db : Int) - (dateNum da : Int) ≤ 0 at hab
  change (dateNum dc : Int) - (dateNum db : Int) ≤ 0 at hbc
  change (dateNum dc : Int) - (dateNum da : Int) ≤ 0
  omega

theorem jsDateCompare_le_key {a b : TaggedTx}
    (ha : (parseJsDate a.date).isSome = true)
    (hb : (parseJsDate b.date).isSome = true)
    (hab : jsDateCompare a b ≤ 0) : dateKeyOf b ≤ dateKeyOf a := by
  obtain ⟨da, hpa⟩ := Option.isSome_iff_exists.mp ha
  obtain ⟨db, hpb⟩ := Option.isSome_iff_exists.mp hb
  unfold jsDateCompare at hab
  unfold dateKeyOf
  rw [hpa, hpb] at hab
  rw [hpa, hpb]
  change (dateNum db : Int) - (dateNum da : Int) ≤ 0 at hab
  change dateNum db ≤ dateNum da
  omega

/-- C2: getTransactions applies exactly the four filters conjunctively —
type (exact expense or income match), inclusive optional date range, category
(matching only expense records), source (matching only income records) — and
the result is a permutation of the records of the tagged input that pass the
conjunction; moreover, when every input record carries a parseable date, the
result is sorted by date descending (each record's date key is greater than
or equal to every later record's). -/
theorem c2_getTransactions_filter_sort (expenses : List StoredExpense)
    (income : List StoredIncome) (filters : Filters) :
    (getTransactionsCore expenses income filters).Perm
      ((expenses.map TaggedTx.exp ++ income.map TaggedTx.inc).filter
        (passesFilters filters)) ∧
    ((∀ t ∈ expenses.map TaggedTx.exp ++ income.map TaggedTx.inc,
        (parseJsDate (TaggedTx.date t)).isSome = true) →
      (getTransactionsCore expenses income filters).Pairwise
        fun a b => dateKeyOf b ≤ dateKeyOf a) := by
  have hpipe := filterPipeline_eq filters
    (expenses.map TaggedTx.exp ++ income.map TaggedTx.inc)
  constructor
  · show (getTransactionsCore expenses income filters).Perm _
    simp only [getTransactionsCore]
    rw [hpipe]
    exact List.perm_insertionSort _ _
  · intro hvalid
    have hmemP : ∀ x ∈ ((expenses.map TaggedTx.exp ++
        income.map TaggedTx.inc).filter (passesFilters filters)),
        (parseJsDate (TaggedTx.date x)).isSome = true := by
      intro x hx
      exact hvalid x (List.mem_of_mem_filter hx)
    have hsorted := pairwise_insertionSort_restricted
      (fun a b => jsDateCompare a b ≤ 0)
      (fun t => (parseJsDate (TaggedTx.date t)).isSome = true)
      (fun a b ha hb => jsDateCompare_le_total ha hb)
      (fun a b c ha hb hc => jsDateCompare_le_trans ha hb hc)
      ((expenses.map TaggedTx.exp ++ income.map TaggedTx.inc).filter
        (passesFilters filters)) hmemP
    simp only [getTransactionsCore]
    rw [hpipe]
    refine List.Pairwise.imp_of_mem ?_ hsorted
    intro a b hamem hbmem hab
    exact jsDateCompare_le_key
      (hmemP a ((List.mem_insertionSort _).mp hamem))
      (hmemP b ((List.mem_insertionSort _).mp hbmem)) hab

/-- C2 witness: the theorem applied to the worked example — Food expenses in
January 2024 — on a small concrete data set. -/
theorem c2_getTransactions_filter_sort_witness :
    (getTransactionsCore
      [⟨"e1", JsNum.num 10, "2024-01-05", "", "$", "t1", "Food", "expense"⟩,
       ⟨"e2", JsNum.num 20, "2024-01-20", "", "$", "t2", "Food", "expense"⟩,
       ⟨"e3", JsNum.num 30, "2024-01-10", "", "$", "t3", "Transport", "expense"⟩,
       ⟨"e4", JsNum.num 40, "2024-02-05", "", "$", "t4", "Food", "expense"⟩]
      [⟨"i1", JsNum.num 500, "2024-01-15", "", "$", "t5", "Salary", "income"⟩]
      ⟨some "expense", some "2024-01-01", some "2024-01-31", some "Food", none⟩).Perm
      (([⟨"e1", JsNum.num 10, "2024-01-05", "", "$", "t1", "Food", "expense"⟩,
         ⟨"e2", JsNum.num 20, "2024-01-20", "", "$", "t2", "Food", "expense"⟩,
         ⟨"e3", JsNum.num 30, "2024-01-10", "", "$", "t3", "Transport", "expense"⟩,
         ⟨"e4", JsNum.num 40, "2024-02-05", "", "$", "t4", "Food", "expense"⟩].map
          TaggedTx.exp ++
        [(⟨"i1", JsNum.num 500, "2024-01-15", "", "$", "t5", "Salary", "income"⟩ :
          StoredIncome)].map TaggedTx.inc).filter
        (passesFilters ⟨some "expense", some "2024-01-01", some "2024-01-31",
          some "Food", none⟩)) ∧
    (getTransactionsCore
      [⟨"e1", JsNum.num 10, "2024-01-05", "", "$", "t1", "Food", "expense"⟩,
       ⟨"e2", JsNum.num 20, "2024-01-20", "", "$", "t2", "Food", "expense"⟩,
       ⟨"e3", JsNum.num 30, "2024-01-10", "", "$", "t3", "Transport", "expense"⟩,
       ⟨"e4", JsNum.num 40, "2024-02-05", "", "$", "t4", "Food", "expense"⟩]
      [⟨"i1", JsNum.num 500, "2024-01-15", "", "$", "t5", "Salary", "income"⟩]
      ⟨some "expense", some "2024-01-01", some "2024-01-31", some "Food", none⟩).Pairwise
      (fun a b => dateKeyOf b ≤ dateKeyOf a) :=
  ⟨(c2_getTransactions_filter_sort _ _ _).1,
   (c2_getTransactions_filter_sort _ _ _).2 (by decide)⟩

/-! ## Claim C5 -/

/-- C5 counterexample: a successful updateExpense with an empty updates
object — every field absent — resets the stored createdAt to the update-time
clock reading instead of keeping the stored value, because the
reconstruction goes through the constructor, which always stamps a fresh
createdAt. -/
theorem c5_counterexample :
    (TransactionService.updateExpense
      [⟨"a1", JsNum.num 50, "2024-01-15", "x", "$",
        "2024-01-15T10:00:00.000Z", "Food", "expense"⟩]
      "a1" ⟨none, none, none, none, none⟩ "gen"
      "2025-06-01T00:00:00.000Z").1.success = true ∧
    ((TransactionService.updateExpense
      [⟨"a1", JsNum.num 50, "2024-01-15", "x", "$",
        "2024-01-15T10:00:00.000Z", "Food", "expense"⟩]
      "a1" ⟨none, none, none, none, none⟩ "gen"
      "2025-06-01T00:00:00.000Z").2.map fun e => e.createdAt) =
      ["2025-06-01T00:00:00.000Z"] ∧
    "2025-06-01T00:00:00.000Z" ≠ "2024-01-15T10:00:00.000Z" := by
  decide

/-- C5 (amended): a successful updateExpense (resp. updateIncome) on a
stored record replaces exactly the first record with the given id, and the
new stored value takes every field present in updates from updates and keeps
every absent field from the stored record — id always kept; amount, date,
category (resp. source), description and currency kept when absent (a stored
empty currency is normalised to the dollar sign) — EXCEPT createdAt, which
is reset to the update-time clock reading rather than kept. -/
theorem c5_update_frame :
    (∀ (expenses : List StoredExpense) (id : String) (updates : ExpenseUpdates)
       (genId nowIso : String) (e : StoredExpense),
      expenses.find? (fun x => x.id == id) = some e →
      e.id ≠ "" →
      formatDateISO (DateInput.obj (parseJsDate e.date)) = e.date →
      (TransactionService.updateExpense expenses id updates genId nowIso).1.success = true →
      (TransactionService.updateExpense expenses id updates genId nowIso).2 =
        replaceFirst (fun x => x.id == id)
          { id := e.id,
            amount := match updates.amount with | some a => a | none => e.amount,
            date := match updates.date with
              | some s => formatDateISO (DateInput.obj (parseJsDate s))
              | none => e.date,
            description := match updates.description with
              | some d => d | none => e.description,
            currency := match updates.currency with
              | some c => c
              | none => if e.currency = "" then "$" else e.currency,
            createdAt := nowIso,
            category := match updates.category with | some c => c | none => e.category,
            type := "expense" } expenses) ∧
    (∀ (incomeList : List StoredIncome) (id : String) (updates : IncomeUpdates)
       (genId nowIso : String) (i : StoredIncome),
      incomeList.find? (fun x => x.id == id) = some i →
      i.id ≠ "" →
      formatDateISO (DateInput.obj (parseJsDate i.date)) = i.date →
      (TransactionService.updateIncome incomeList id updates genId nowIso).1.success = true →
      (TransactionService.updateIncome incomeList id updates genId nowIso).2 =
        replaceFirst (fun x => x.id == id)
          { id := i.id,
            amount := match updates.amount with | some a => a | none => i.amount,
            date := match updates.date with
              | some s => formatDateISO (DateInput.obj (parseJsDate s))
              | none => i.date,
            description := match updates.description with
              | some d => d | none => i.description,
            currency := match updates.currency with
              | some c => c
              | none => if i.currency = "" then "$" else i.currency,
            createdAt := nowIso,
            source := match updates.source with | some s => s | none => i.source,
            type := "income" } incomeList) := by
  constructor
  · intro expenses id updates genId nowIso e hfind hid hdate hsucc
    have hjson : (rebuildExpense e updates genId nowIso).toJSON =
        { id := e.id,
          amount := match updates.amount with | some a => a | none => e.amount,
          date := match updates.date with
            | some s => formatDateISO (DateInput.obj (parseJsDate s))
            | none => e.date,
          description := match updates.description with
            | some d => d | none => e.description,
          currency := match updates.currency with
            | some c => c
            | none => if e.currency = "" then "$" else e.currency,
          createdAt := nowIso,
          category := match updates.category with | some c => c | none => e.category,
          type := "expense" } := by
      unfold rebuildExpense Expense.make Expense.toJSON
      cases hud : updates.date <;> simp [hid, hdate]
    by_cases hval : (rebuildExpense e updates genId nowIso).validate.isValid = true
    · unfold TransactionService.updateExpense
      rw [hfind]
      simp [hval, hjson]
    · have hvf : (rebuildExpense e updates genId nowIso).validate.isValid = false := by
        cases hbb : (rebuildExpense e updates genId nowIso).validate.isValid
        · rfl
        · exact absurd hbb hval
      unfold TransactionService.updateExpense at hsucc
      rw [hfind] at hsucc
      simp [hvf] at hsucc
  · intro incomeList id updates genId nowIso i hfind hid hdate hsucc
    have hjson : (rebuildIncome i updates genId nowIso).toJSON =
        { id := i.id,
          amount := match updates.amount with | some a => a | none => i.amount,
          date := match updates.date with
            | some s => formatDateISO (DateInput.obj (parseJsDate s))
            | none => i.date,
          description := match updates.description with
            | some d => d | none => i.description,
          currency := match updates.currency with
            | some c => c
            | none => if i.currency = "" then "$" else i.currency,
          createdAt := nowIso,
          source := match updates.source with | some s => s | none => i.source,
          type := "income" } := by
      unfold rebuildIncome Income.make Income.toJSON
      cases hud : updates.date <;> simp [hid, hdate]
    by_cases hval : (rebuildIncome i updates genId nowIso).validate.isValid = true
    · unfold TransactionService.updateIncome
      rw [hfind]
      simp [hval, hjson]
    · have hvf : (rebuildIncome i updates genId nowIso).validate.isValid = false := by
        cases hbb : (rebuildIncome i updates genId nowIso).validate.isValid
        · rfl
        · exact absurd hbb hval
      unfold TransactionService.updateIncome at hsucc
      rw [hfind] at hsucc
      simp [hvf] at hsucc

/-- C5 witness: the amended frame theorem applied to a concrete stored
expense with only the amount updated, and a concrete stored income with only
the source updated. -/
theorem c5_update_frame_witness :
    (TransactionService.updateExpense
      [⟨"a1", JsNum.num 50, "2024-01-15", "x", "€", "tOld", "Food", "expense"⟩]
      "a1" ⟨some (JsNum.num 99), none, none, none, none⟩ "gen" "tNew").2 =
      replaceFirst (fun x => x.id == "a1")
        { id := "a1", amount := JsNum.num 99, date := "2024-01-15",
          description := "x", currency := "€", createdAt := "tNew",
          category := "Food", type := "expense" }
        [⟨"a1", JsNum.num 50, "2024-01-15", "x", "€", "tOld", "Food", "expense"⟩] ∧
    (TransactionService.updateIncome
      [⟨"b1", JsNum.num 70, "2024-02-10", "", "$", "tOld", "Salary", "income"⟩]
      "b1" ⟨none, none, some "Gift", none, none⟩ "gen" "tNew").2 =
      replaceFirst (fun x => x.id == "b1")
        { id := "b1", amount := JsNum.num 70, date := "2024-02-10",
          description := "", currency := "$", createdAt := "tNew",
          source := "Gift", type := "income" }
        [⟨"b1", JsNum.num 70, "2024-02-10", "", "$", "tOld", "Salary", "income"⟩] :=
  ⟨c5_update_frame.1
    [⟨"a1", JsNum.num 50, "2024-01-15", "x", "€", "tOld", "Food", "expense"⟩]
    "a1" ⟨some (JsNum.num 99), none, none, none, none⟩ "gen" "tNew"
    ⟨"a1", JsNum.num 50, "2024-01-15", "x", "€", "tOld", "Food", "expense"⟩
    (by decide) (by decide) (by decide) (by decide),
   c5_update_frame.2
    [⟨"b1", JsNum.num 70, "2024-02-10", "", "$", "tOld", "Salary", "income"⟩]
    "b1" ⟨none, none, some "Gift", none, none⟩ "gen" "tNew"
    ⟨"b1", JsNum.num 70, "2024-02-10", "", "$", "tOld", "Salary", "income"⟩
    (by decide) (by decide) (by decide) (by decide)⟩

/-! ## Claim C6 -/

/-- C6: updating a stored Expense with a category outside the fixed
enumeration is rejected — the whole reconstructed value is re-validated, the
result is a failure, and the stored document is unchanged. -/
theorem c6_update_bad_category (expenses : List StoredExpense) (id : String)
    (updates : ExpenseUpdates) (genId nowIso : String) (e : StoredExpense)
    (c : String)
    (hfind : expenses.find? (fun x => x.id == id) = some e)
    (hcat : updates.category = some c)
    (hinvalid : c ∉ EXPENSE_CATEGORIES) :
    (TransactionService.updateExpense expenses id updates genId nowIso).1.success
      = false ∧
    (TransactionService.updateExpense expenses id updates genId nowIso).2
      = expenses := by
  have hcatval : (rebuildExpense e updates genId nowIso).category = c := by
    simp [rebuildExpense, Expense.make, hcat]
  have hmem : ∃ m, m ∈ (rebuildExpense e updates genId nowIso).validate.errors := by
    by_cases hc0 : c = ""
    · exact ⟨"Category is required", by simp [Expense.validate, hcatval, hc0]⟩
    · refine ⟨"Invalid category. Must be one of: Food, Transport, Utilities, Entertainment, Healthcare, Shopping, Education, Other", ?_⟩
      simp [Expense.validate, hcatval, hc0, hinvalid]
  obtain ⟨m, hm⟩ := hmem
  have hverr : (rebuildExpense e updates genId nowIso).validate.isValid = false := by
    have hrfl : (rebuildExpense e updates genId nowIso).validate.isValid =
        (rebuildExpense e updates genId nowIso).validate.errors.isEmpty := rfl
    exact hrfl.trans (isEmpty_false_of_mem hm)
  unfold TransactionService.updateExpense
  rw [hfind]
  simp [hverr]

/-- C6 witness: the rejection theorem applied at a concrete stored expense
and the out-of-enumeration category Junk. -/
theorem c6_update_bad_category_witness :
    (TransactionService.updateExpense
      [⟨"a1", JsNum.num 50, "2024-01-15", "", "$", "t0", "Food", "expense"⟩]
      "a1" ⟨none, none, some "Junk", none, none⟩ "gen" "t1").1.success = false ∧
    (TransactionService.updateExpense
      [⟨"a1", JsNum.num 50, "2024-01-15", "", "$", "t0", "Food", "expense"⟩]
      "a1" ⟨none, none, some "Junk", none, none⟩ "gen" "t1").2 =
      [⟨"a1", JsNum.num 50, "2024-01-15", "", "$", "t0", "Food", "expense"⟩] :=
  c6_update_bad_category
    [⟨"a1", JsNum.num 50, "2024-01-15", "", "$", "t0", "Food", "expense"⟩]
    "a1" ⟨none, none, some "Junk", none, none⟩ "gen" "t1"
    ⟨"a1", JsNum.num 50, "2024-01-15", "", "$", "t0", "Food", "expense"⟩
    "Junk" (by decide) rfl (by decide)

/-! ## Claim C3 -/

/-- backupCorruptedFile on a present live file, when the serialized empty
document fits the size cap: the bad bytes land in a fresh timestamped
corruption backup and the live file is reset to the empty document. -/
theorem backupCorruptedFile_spec (c : Codec) (now : Nat) (fs : FsState)
    (content : String) (hlive : fs.live = some content)
    (hfit : (c.serialize ⟨[], [], []⟩).utf8ByteSize ≤ maxFileSize) :
    (backupCorruptedFile c now fs).corrupted = (now, content) :: fs.corrupted ∧
    (backupCorruptedFile c now fs).live = some (c.serialize ⟨[], [], []⟩) := by
  unfold backupCorruptedFile writeData rotateBackups
  simp [hlive, not_lt.mpr hfit]

/-- C3: for every backing-file content that fails to parse (with the file
present, within the size cap, and non-blank — a blank file is handled by the
earlier empty-file branch and an oversize one by the size guard, per the
spec's preceding sentences — and with the serialized empty document itself
within the cap, which the reset write needs), readDocument returns the empty
document rather than any parse error, a timestamped corruption backup
holding the original bytes is created, and the live document is reset to the
serialized empty document. -/
theorem c3_corruption_recovery (c : Codec) (now : Nat) (fs : FsState)
    (content : String)
    (hlive : fs.live = some content)
    (hsize : content.utf8ByteSize ≤ maxFileSize)
    (hnonblank : (trimChars content.toList).isEmpty = false)
    (hparse : c.parse content = none)
    (hfit : (c.serialize ⟨[], [], []⟩).utf8ByteSize ≤ maxFileSize) :
    (readData c now fs).2 = Except.ok ⟨[], [], []⟩ ∧
    (readData c now fs).1.corrupted = (now, content) :: fs.corrupted ∧
    (readData c now fs).1.live = some (c.serialize ⟨[], [], []⟩) := by
  have h1 : ¬ (maxFileSize < content.utf8ByteSize) := not_lt.mpr hsize
  have h2 : trimChars content.data ≠ [] := by
    simpa [String.toList] using hnonblank
  have hb := backupCorruptedFile_spec c now fs content hlive hfit
  unfold readData
  rw [hlive]
  simp [h1, h2, hparse, hb.1, hb.2]

/-- C3 witness: corruption recovery on a concrete unparseable file with a
concrete codec. -/
theorem c3_corruption_recovery_witness :
    (readData ⟨fun _ => "reset", fun _ => none⟩ 7
      ⟨some "garbage", none, none, [], []⟩).2 = Except.ok ⟨[], [], []⟩ ∧
    (readData ⟨fun _ => "reset", fun _ => none⟩ 7
      ⟨some "garbage", none, none, [], []⟩).1.corrupted = [(7, "garbage")] ∧
    (readData ⟨fun _ => "reset", fun _ => none⟩ 7
      ⟨some "garbage", none, none, [], []⟩).1.live = some "reset" :=
  c3_corruption_recovery ⟨fun _ => "reset", fun _ => none⟩ 7
    ⟨some "garbage", none, none, [], []⟩ "garbage" rfl (by decide) (by decide)
    rfl (by decide)

/-! ## Claim C9 -/

/-- One successful writeData on a state with a live file: the live file
becomes the serialized document, and the timestamped backups become a fresh
backup of the old live content at time now, in front of the rotation
survivors (the two newest when three or more existed, everything
otherwise). -/
theorem writeData_step (c : Codec) (doc : StoreDoc) (now : Nat)
    (fs : FsState) (content : String) (hlive : fs.live = some content)
    (hfit : (c.serialize doc).utf8ByteSize ≤ maxFileSize) :
    (writeData c doc now fs).1.live = some (c.serialize doc) ∧
    (writeData c doc now fs).1.tsBackups =
      (now, content) ::
        (if 3 ≤ (fs.tsBackups.insertionSort fun a b => b.1 ≤ a.1).length
         then (fs.tsBackups.insertionSort fun a b => b.1 ≤ a.1).take 2
         else fs.tsBackups) := by
  unfold writeData rotateBackups
  simp [hlive, not_lt.mpr hfit]

/-- One successful writeData on a state with no live file: no rotation
happens and the backups are untouched. -/
theorem writeData_step_nolive (c : Codec) (doc : StoreDoc) (now : Nat)
    (fs : FsState) (hlive : fs.live = none)
    (hfit : (c.serialize doc).utf8ByteSize ≤ maxFileSize) :
    (writeData c doc now fs).1.live = some (c.serialize doc) ∧
    (writeData c doc now fs).1.tsBackups = fs.tsBackups := by
  unfold writeData
  simp [hlive, not_lt.mpr hfit]

/-- Every rotation survivor was already a backup before the rotation. -/
theorem mem_kept {l : List (Nat × String)} {p : Nat × String}
    (hp : p ∈ (if 3 ≤ (l.insertionSort fun a b => b.1 ≤ a.1).length
         then (l.insertionSort fun a b => b.1 ≤ a.1).take 2 else l)) :
    p ∈ l := by
  split at hp
  · exact (List.mem_insertionSort _).mp (List.take_subset _ _ hp)
  · exact hp

/-- At most two backups survive a rotation. -/
theorem kept_length_le_two (l : List (Nat × String)) :
    (if 3 ≤ (l.insertionSort fun a b => b.1 ≤ a.1).length
     then (l.insertionSort fun a b => b.1 ≤ a.1).take 2 else l).length ≤ 2 := by
  split
  · simp [List.length_take]
  · rename_i h
    have hl : (l.insertionSort fun a b => b.1 ≤ a.1).length = l.length :=
      List.length_insertionSort _ _
    omega

/-- After k+1 successful writes the live file holds the last document
written, and every timestamped backup is older than the next write time. -/
theorem writeSeq_live_bound (c : Codec) (docs : Nat → StoreDoc)
    (t : Nat → Nat) (fs0 : FsState)
    (hfits : ∀ k, (c.serialize (docs k)).utf8ByteSize ≤ maxFileSize)
    (hmono : StrictMono t)
    (hinit : ∀ p ∈ fs0.tsBackups, p.1 < t 0) :
    ∀ k, (writeSeq c docs t (k + 1) fs0).live = some (c.serialize (docs k)) ∧
      ∀ p ∈ (writeSeq c docs t (k + 1) fs0).tsBackups, p.1 < t (k + 1) := by
  intro k
  induction k with
  | zero =>
    simp only [writeSeq]
    cases hl : fs0.live with
    | none =>
      have h := writeData_step_nolive c (docs 0) (t 0) fs0 hl (hfits 0)
      refine ⟨h.1, ?_⟩
      rw [h.2]
      intro p hp
      exact lt_trans (hinit p hp) (hmono (Nat.lt_succ_self 0))
    | some lc =>
      have h := writeData_step c (docs 0) (t 0) fs0 lc hl (hfits 0)
      refine ⟨h.1, ?_⟩
      rw [h.2]
      intro p hp
      rcases List.mem_cons.mp hp with rfl | hp'
      · exact hmono (Nat.lt_succ_self 0)
      · exact lt_trans (hinit p (mem_kept hp')) (hmono (Nat.lt_succ_self 0))
  | succ n ih =>
    have hstep : writeSeq c docs t (n + 1 + 1) fs0 =
        (writeData c (docs (n + 1)) (t (n + 1))
          (writeSeq c docs t (n + 1) fs0)).1 := rfl
    rw [hstep]
    have h := writeData_step c (docs (n + 1)) (t (n + 1))
      (writeSeq c docs t (n + 1) fs0) (c.serialize (docs n)) ih.1
      (hfits (n + 1))
    refine ⟨h.1, ?_⟩
    rw [h.2]
    intro p hp
    rcases List.mem_cons.mp hp with rfl | hp'
    · exact hmono (Nat.lt_succ_self (n + 1))
    · exact lt_trans (ih.2 p (mem_kept hp')) (hmono (Nat.lt_succ_self (n + 1)))

/-- Sorting a two-element list already in descending order changes
nothing. -/
theorem sortDesc_two (p q : Nat × String) (hpq : q.1 ≤ p.1) :
    List.insertionSort (fun a b => b.1 ≤ a.1) [p, q] = [p, q] := by
  simp [List.insertionSort, List.orderedInsert, hpq]

/-- Sorting a three-element list already in descending order changes
nothing. -/
theorem sortDesc_three (p q r : Nat × String) (hpq : q.1 ≤ p.1)
    (_hpr : r.1 ≤ p.1) (hqr : r.1 ≤ q.1) :
    List.insertionSort (fun a b => b.1 ≤ a.1) [p, q, r] = [p, q, r] := by
  simp [List.insertionSort, List.orderedInsert, hpq, hqr]

/-- After two successful writes the backups are a fresh one at the second
write time over at most two older survivors. -/
theorem writeSeq_two (c : Codec) (docs : Nat → StoreDoc) (t : Nat → Nat)
    (fs0 : FsState)
    (hfits : ∀ k, (c.serialize (docs k)).utf8ByteSize ≤ maxFileSize)
    (hmono : StrictMono t)
    (hinit : ∀ p ∈ fs0.tsBackups, p.1 < t 0) :
    ∃ cl tl, (writeSeq c docs t 2 fs0).tsBackups = (t 1, cl) :: tl ∧
      tl.length ≤ 2 ∧ ∀ p ∈ tl, p.1 < t 1 := by
  have h1 := writeSeq_live_bound c docs t fs0 hfits hmono hinit 0
  have h1a : (writeSeq c docs t 1 fs0).live = some (c.serialize (docs 0)) := h1.1
  have h1b : ∀ p ∈ (writeSeq c docs t 1 fs0).tsBackups, p.1 < t 1 := h1.2
  have h := writeData_step c (docs 1) (t 1) (writeSeq c docs t 1 fs0)
    (c.serialize (docs 0)) h1a (hfits 1)
  refine ⟨c.serialize (docs 0),
    (if 3 ≤ ((writeSeq c docs t 1 fs0).tsBackups.insertionSort
        fun a b => b.1 ≤ a.1).length
     then ((writeSeq c docs t 1 fs0).tsBackups.insertionSort
        fun a b => b.1 ≤ a.1).take 2
     else (writeSeq c docs t 1 fs0).tsBackups), ?_, kept_length_le_two _, ?_⟩
  · rw [show writeSeq c docs t 2 fs0 =
      (writeData c (docs 1) (t 1) (writeSeq c docs t 1 fs0)).1 from rfl, h.2]
  · intro p hp
    exact h1b p (mem_kept hp)

/-- After three successful writes: fresh backups at the third and second
write times over at most one older survivor. -/
theorem writeSeq_three (c : Codec) (docs : Nat → StoreDoc) (t : Nat → Nat)
    (fs0 : FsState)
    (hfits : ∀ k, (c.serialize (docs k)).utf8ByteSize ≤ maxFileSize)
    (hmono : StrictMono t)
    (hinit : ∀ p ∈ fs0.tsBackups, p.1 < t 0) :
    ∃ c2 c1 tl, (writeSeq c docs t 3 fs0).tsBackups =
      (t 2, c2) :: (t 1, c1) :: tl ∧ tl.length ≤ 1 ∧ ∀ p ∈ tl, p.1 < t 1 := by
  obtain ⟨cl, tl, htb, hlen, hbnd⟩ := writeSeq_two c docs t fs0 hfits hmono hinit
  have h2 := writeSeq_live_bound c docs t fs0 hfits hmono hinit 1
  have h2a : (writeSeq c docs t 2 fs0).live = some (c.serialize (docs 1)) := h2.1
  have h := writeData_step c (docs 2) (t 2) (writeSeq c docs t 2 fs0)
    (c.serialize (docs 1)) h2a (hfits 2)
  rw [htb] at h
  have hstep : writeSeq c docs t 3 fs0 =
      (writeData c (docs 2) (t 2) (writeSeq c docs t 2 fs0)).1 := rfl
  match tl, hlen, hbnd with
  | [], _, _ =>
    have hne : ¬ 3 ≤ (List.insertionSort (fun a b => (b.1 : Nat) ≤ a.1)
        [(t 1, cl)]).length := by
      rw [List.length_insertionSort]
      simp
    rw [if_neg hne] at h
    exact ⟨c.serialize (docs 1), cl, [], by rw [hstep, h.2], by simp, by simp⟩
  | [a], _, hbnd =>
    have hne : ¬ 3 ≤ (List.insertionSort (fun a b => (b.1 : Nat) ≤ a.1)
        [(t 1, cl), a]).length := by
      rw [List.length_insertionSort]
      simp
    rw [if_neg hne] at h
    refine ⟨c.serialize (docs 1), cl, [a], by rw [hstep, h.2], by simp, ?_⟩
    intro p hp
    rcases List.mem_singleton.mp hp with rfl
    exact hbnd p (List.mem_cons_self p [])
  | a :: b :: tl', hlen, hbnd =>
    have htl' : tl' = [] := by
      cases tl' with
      | nil => rfl
      | cons x xs => simp at hlen
    subst htl'
    have hab : (a.1 : Nat) ≤ t 1 ∧ (b.1 : Nat) ≤ t 1 :=
      ⟨le_of_lt (hbnd a (List.mem_cons_self a [b])),
       le_of_lt (hbnd b (List.mem_cons_of_mem a (List.mem_cons_self b [])))⟩
    have hsort : List.insertionSort (fun x y => (y.1 : Nat) ≤ x.1)
        [(t 1, cl), a, b] =
        (t 1, cl) :: List.insertionSort (fun x y => (y.1 : Nat) ≤ x.1) [a, b] := by
      apply List.insertionSort_cons
      intro x hx
      rcases List.mem_cons.mp hx with rfl | hx'
      · exact hab.1
      · rcases List.mem_singleton.mp hx' with rfl
        exact hab.2
    have hys : 3 ≤ (List.insertionSort (fun x y => (y.1 : Nat) ≤ x.1)
        [(t 1, cl), a, b]).length := by
      rw [List.length_insertionSort]
      simp
    rw [if_pos hys, hsort] at h
    refine ⟨c.serialize (docs 1), cl,
      (List.insertionSort (fun x y => (y.1 : Nat) ≤ x.1) [a, b]).take 1,
      by rw [hstep, h.2]; rfl, ?_, ?_⟩
    · simp [List.length_take]
    · intro p hp
      have hp2 : p ∈ [a, b] :=
        (List.mem_insertionSort _).mp (List.take_subset _ _ hp)
      exact hbnd p hp2

/-- From the fourth successful write on, the surviving timestamped backups
are exactly three: fresh copies made at the three most recent write
times. -/
theorem writeSeq_exact (c : Codec) (docs : Nat → StoreDoc) (t : Nat → Nat)
    (fs0 : FsState)
    (hfits : ∀ k, (c.serialize (docs k)).utf8ByteSize ≤ maxFileSize)
    (hmono : StrictMono t)
    (hinit : ∀ p ∈ fs0.tsBackups, p.1 < t 0) :
    ∀ k, ∃ c3 c2 c1, (writeSeq c docs t (k + 4) fs0).tsBackups =
      [(t (k + 3), c3), (t (k + 2), c2), (t (k + 1), c1)] := by
  intro k
  induction k with
  | zero =>
    obtain ⟨c2', c1', tl, htb, hlen, hbnd⟩ :=
      writeSeq_three c docs t fs0 hfits hmono hinit
    have h3 := writeSeq_live_bound c docs t fs0 hfits hmono hinit 2
    have h3a : (writeSeq c docs t 3 fs0).live = some (c.serialize (docs 2)) := h3.1
    have h := writeData_step c (docs 3) (t 3) (writeSeq c docs t 3 fs0)
      (c.serialize (docs 2)) h3a (hfits 3)
    rw [htb] at h
    have hstep : writeSeq c docs t (0 + 4) fs0 =
        (writeData c (docs 3) (t 3) (writeSeq c docs t 3 fs0)).1 := rfl
    have h12 : (t 1 : Nat) ≤ t 2 := le_of_lt (hmono Nat.one_lt_two)
    match tl, hlen, hbnd with
    | [], _, _ =>
      have hne : ¬ 3 ≤ (List.insertionSort (fun x y => (y.1 : Nat) ≤ x.1)
          [(t 2, c2'), (t 1, c1')]).length := by
        rw [List.length_insertionSort]
        simp
      rw [if_neg hne] at h
      exact ⟨c.serialize (docs 2), c2', c1', by rw [hstep, h.2]⟩
    | [a], _, hbnd =>
      have ha1 : (a.1 : Nat) ≤ t 1 := le_of_lt (hbnd a (List.mem_cons_self a []))
      have hys : 3 ≤ (List.insertionSort (fun x y => (y.1 : Nat) ≤ x.1)
          [(t 2, c2'), (t 1, c1'), a]).length := by
        rw [List.length_insertionSort]
        simp
      have hsort := sortDesc_three (t 2, c2') (t 1, c1') a h12
        (le_trans ha1 h12) ha1
      rw [if_pos hys, hsort] at h
      exact ⟨c.serialize (docs 2), c2', c1', by rw [hstep, h.2]; rfl⟩
  | succ n ih =>
    obtain ⟨c3', c2', c1', htb⟩ := ih
    have hlive := writeSeq_live_bound c docs t fs0 hfits hmono hinit (n + 3)
    have hlive1 : (writeSeq c docs t (n + 4) fs0).live =
        some (c.serialize (docs (n + 3))) := hlive.1
    have h := writeData_step c (docs (n + 4)) (t (n + 4))
      (writeSeq c docs t (n + 4) fs0) (c.serialize (docs (n + 3))) hlive1
      (hfits (n + 4))
    rw [htb] at h
    have h23 : (t (n + 2) : Nat) ≤ t (n + 3) := le_of_lt (hmono (by omega))
    have h13 : (t (n + 1) : Nat) ≤ t (n + 3) := le_of_lt (hmono (by omega))
    have h12 : (t (n + 1) : Nat) ≤ t (n + 2) := le_of_lt (hmono (by omega))
    have hys : 3 ≤ (List.insertionSort (fun x y => (y.1 : Nat) ≤ x.1)
        [(t (n + 3), c3'), (t (n + 2), c2'), (t (n + 1), c1')]).length := by
      rw [List.length_insertionSort]
      simp
    have hsort := sortDesc_three (t (n + 3), c3') (t (n + 2), c2')
      (t (n + 1), c1') h23 h13 h12
    rw [if_pos hys, hsort] at h
    have hstep : writeSeq c docs t (n + 1 + 4) fs0 =
        (writeData c (docs (n + 4)) (t (n + 4))
          (writeSeq c docs t (n + 4) fs0)).1 := rfl
    refine ⟨c.serialize (docs (n + 3)), c3', c2', ?_⟩
    rw [hstep, h.2]
    rfl

/-- C9: after N greater than or equal to 4 successive successful
writeDocument calls at strictly increasing times, starting from any state
whose pre-existing backups are older than the first write, at most three
timestamped backup files exist, and their modification times are exactly the
three most recent write times, newest first. -/
theorem c9_backup_rotation_bound (c : Codec) (docs : Nat → StoreDoc)
    (t : Nat → Nat) (fs0 : FsState) (N : Nat)
    (hfits : ∀ k, (c.serialize (docs k)).utf8ByteSize ≤ maxFileSize)
    (hmono : StrictMono t)
    (hinit : ∀ p ∈ fs0.tsBackups, p.1 < t 0)
    (hN : 4 ≤ N) :
    (writeSeq c docs t N fs0).tsBackups.length ≤ 3 ∧
    (writeSeq c docs t N fs0).tsBackups.map Prod.fst =
      [t (N - 1), t (N - 2), t (N - 3)] := by
  obtain ⟨k, rfl⟩ : ∃ k, N = k + 4 := ⟨N - 4, by omega⟩
  obtain ⟨c3, c2, c1, htb⟩ := writeSeq_exact c docs t fs0 hfits hmono hinit k
  rw [htb]
  have e1 : k + 4 - 1 = k + 3 := by omega
  have e2 : k + 4 - 2 = k + 2 := by omega
  have e3 : k + 4 - 3 = k + 1 := by omega
  rw [e1, e2, e3]
  exact ⟨by simp, by simp⟩

/-- C9 witness: five writes of the empty document at times 0 to 4 onto an
initially empty file system leave exactly the backups made at times 4, 3
and 2. -/
theorem c9_backup_rotation_bound_witness :
    (writeSeq ⟨fun _ => "d", fun _ => none⟩ (fun _ => ⟨[], [], []⟩)
      (fun i => i) 5 ⟨none, none, none, [], []⟩).tsBackups.length ≤ 3 ∧
    (writeSeq ⟨fun _ => "d", fun _ => none⟩ (fun _ => ⟨[], [], []⟩)
      (fun i => i) 5 ⟨none, none, none, [], []⟩).tsBackups.map Prod.fst =
      [4, 3, 2] :=
  c9_backup_rotation_bound ⟨fun _ => "d", fun _ => none⟩
    (fun _ => ⟨[], [], []⟩) (fun i => i) ⟨none, none, none, [], []⟩ 5
    (by intro k; change ("d" : String).utf8ByteSize ≤ maxFileSize; decide)
    (fun a b h => h)
    (fun p hp => absurd hp (List.not_mem_nil p)) (by decide)

/-! ## Claim C4 -/

/-- C4: the failure semantics of the service boundary.  Domain/validation
failures and lookup misses are returned as failure results, never thrown:
(1) addExpense on an invalid value returns the joined validation messages
without touching storage; (2) addExpense converts even a thrown record-store
error into a returned failure result; (3) deleteExpense reports a lookup
miss as a failure result; (4) deleteExpense converts a thrown record-store
read error into a returned failure result.  The only errors that propagate
to the caller as thrown errors are record-store errors, through the
uncaught query path: (5) and (6) getTransactions rethrows exactly the
storage error of whichever of its two reads failed — and the error type
JsError has only the record-store failure kinds (oversize, host I/O). -/
theorem c4_error_boundaries :
    (∀ (c : Codec) (now : Nat) (amount : JsNum) (date : DateInput)
       (category description currency genId nowIso : String) (fs : FsState),
      (Expense.make amount date category description currency none genId
        nowIso).validate.isValid = false →
      TransactionServiceFs.addExpense c now amount date category description
        currency genId nowIso fs =
        (⟨false, joinErrors (Expense.make amount date category description
          currency none genId nowIso).validate.errors, none⟩, fs)) ∧
    (∀ (c : Codec) (now : Nat) (amount : JsNum) (date : DateInput)
       (category description currency genId nowIso : String)
       (fs fs1 : FsState) (err : JsError),
      (Expense.make amount date category description currency none genId
        nowIso).validate.isValid = true →
      StorageService.addExpense c now (Expense.make amount date category
        description currency none genId nowIso).toJSON fs = (fs1, some err) →
      TransactionServiceFs.addExpense c now amount date category description
        currency genId nowIso fs =
        (⟨false, "Failed to add expense: " ++ err.message, none⟩, fs1)) ∧
    (∀ (c : Codec) (now : Nat) (id : String) (fs fs1 : FsState)
       (expenses : List StoredExpense),
      StorageService.getExpenses c now fs = (fs1, Except.ok expenses) →
      expenses.find? (fun e => e.id == id) = none →
      TransactionServiceFs.deleteExpense c now id fs =
        (⟨false, "Expense not found"⟩, fs1)) ∧
    (∀ (c : Codec) (now : Nat) (id : String) (fs fs1 : FsState)
       (err : JsError),
      StorageService.getExpenses c now fs = (fs1, Except.error err) →
      TransactionServiceFs.deleteExpense c now id fs =
        (⟨false, "Failed to delete expense: " ++ err.message⟩, fs1)) ∧
    (∀ (c : Codec) (now : Nat) (filters : Filters) (fs fs1 : FsState)
       (err : JsError),
      StorageService.getExpenses c now fs = (fs1, Except.error err) →
      TransactionServiceFs.getTransactions c now filters fs =
        (fs1, Except.error err)) ∧
    (∀ (c : Codec) (now : Nat) (filters : Filters) (fs fs1 fs2 : FsState)
       (expenses : List StoredExpense) (err : JsError),
      StorageService.getExpenses c now fs = (fs1, Except.ok expenses) →
      StorageService.getIncome c now fs1 = (fs2, Except.error err) →
      TransactionServiceFs.getTransactions c now filters fs =
        (fs2, Except.error err)) := by
  refine ⟨?_, ?_, ?_, ?_, ?_, ?_⟩
  · intro c now amount date category description currency genId nowIso fs hval
    simp [TransactionServiceFs.addExpense, hval]
  · intro c now amount date category description currency genId nowIso fs fs1
      err hval hst
    simp [TransactionServiceFs.addExpense, hval, hst]
  · intro c now id fs fs1 expenses hread hfind
    simp [TransactionServiceFs.deleteExpense, hread, hfind]
  · intro c now id fs fs1 err hread
    simp [TransactionServiceFs.deleteExpense, hread]
  · intro c now filters fs fs1 err hread
    simp [TransactionServiceFs.getTransactions, hread]
  · intro c now filters fs fs1 fs2 expenses err hexp hinc
    simp [TransactionServiceFs.getTransactions, hexp, hinc]

/-- C4 witness: the boundary theorem applied at concrete inputs — an invalid
amount reported as a failure result, a missing backing file surfacing as a
failure result from deleteExpense and addExpense, a lookup miss on a blank
(empty-document) file, and the same missing-file error propagating out of
getTransactions as the thrown storage error. -/
theorem c4_error_boundaries_witness :
    TransactionServiceFs.addExpense ⟨fun _ => "s", fun _ => none⟩ 0 JsNum.nan
      (DateInput.str "2024-01-15") "Food" "" "$" "g" "t0"
      ⟨some "", none, none, [], []⟩ =
      (⟨false, joinErrors (Expense.make JsNum.nan (DateInput.str "2024-01-15")
        "Food" "" "$" none "g" "t0").validate.errors, none⟩,
       ⟨some "", none, none, [], []⟩) ∧
    TransactionServiceFs.addExpense ⟨fun _ => "s", fun _ => none⟩ 0
      (JsNum.num 5) (DateInput.str "2024-01-15") "Food" "" "$" "g" "t0"
      ⟨none, none, none, [], []⟩ =
      (⟨false, "Failed to add expense: " ++ JsError.ioError.message, none⟩,
       ⟨none, none, none, [], []⟩) ∧
    TransactionServiceFs.deleteExpense ⟨fun _ => "s", fun _ => none⟩ 0 "a1"
      ⟨some "", none, none, [], []⟩ =
      (⟨false, "Expense not found"⟩, ⟨some "", none, none, [], []⟩) ∧
    TransactionServiceFs.deleteExpense ⟨fun _ => "s", fun _ => none⟩ 0 "a1"
      ⟨none, none, none, [], []⟩ =
      (⟨false, "Failed to delete expense: " ++ JsError.ioError.message⟩,
       ⟨none, none, none, [], []⟩) ∧
    TransactionServiceFs.getTransactions ⟨fun _ => "s", fun _ => none⟩ 0
      ⟨none, none, none, none, none⟩ ⟨none, none, none, [], []⟩ =
      (⟨none, none, none, [], []⟩, Except.error JsError.ioError) :=
  ⟨c4_error_boundaries.1 ⟨fun _ => "s", fun _ => none⟩ 0 JsNum.nan
    (DateInput.str "2024-01-15") "Food" "" "$" "g" "t0"
    ⟨some "", none, none, [], []⟩ (by decide),
   c4_error_boundaries.2.1 ⟨fun _ => "s", fun _ => none⟩ 0 (JsNum.num 5)
    (DateInput.str "2024-01-15") "Food" "" "$" "g" "t0"
    ⟨none, none, none, [], []⟩ ⟨none, none, none, [], []⟩ JsError.ioError
    (by decide) rfl,
   c4_error_boundaries.2.2.1 ⟨fun _ => "s", fun _ => none⟩ 0 "a1"
    ⟨some "", none, none, [], []⟩ ⟨some "", none, none, [], []⟩ [] rfl rfl,
   c4_error_boundaries.2.2.2.1 ⟨fun _ => "s", fun _ => none⟩ 0 "a1"
    ⟨none, none, none, [], []⟩ ⟨none, none, none, [], []⟩ JsError.ioError rfl,
   c4_error_boundaries.2.2.2.2.1 ⟨fun _ => "s", fun _ => none⟩ 0
    ⟨none, none, none, none, none⟩ ⟨none, none, none, [], []⟩
    ⟨none, none, none, [], []⟩ JsError.ioError rfl⟩

end ExpenseTracker
